import Mathlib

/-!
Shallow embedding of MIOpen's `src/solution.cpp` (`miopen::Solution`): the
workspace check and dispatch in `Solution::Run`, the single-operator
convolution pipeline `Solution::RunImpl(…, const ConvolutionDescriptor&)`,
the fused pipeline `Solution::RunImpl(…, const FusedProblem&)`,
`Solution::Transpose`, and the JSON (de)serialization `to_json`/`from_json`.

External collaborators (the execution handle's invoker cache, the solver's
`FindSolution`, `PrepareInvoker`, numeric-check hooks, group-count
validation, network-config derivation) are not defined in `solution.cpp`;
they are modelled as opaque parameters gathered in an `Externals` record, or
— where the spec fixes their contract — as definitions marked
`Modelled from the spec:`.  Device-visible actions are recorded in an event
trace so that ordering and counting claims can be stated.
-/

namespace MIOpen

/-- Association-list lookup: first binding for the key, if any.  Models the
lookups in `std::unordered_map` / `std::map` keyed containers. -/
def alistFind {κ α : Type} [DecidableEq κ] : List (κ × α) → κ → Option α
  | [], _ => none
  | (k0, v0) :: rest, k => if k0 = k then some v0 else alistFind rest k

/-- Association-list insert-or-overwrite, keeping the first occurrence's
position.  Models `map[key] = value`. -/
def alistInsert {κ α : Type} [DecidableEq κ] : List (κ × α) → κ → α → List (κ × α)
  | [], k, v => [(k, v)]
  | (k0, v0) :: rest, k, v =>
      if k0 = k then (k, v) :: rest else (k0, v0) :: alistInsert rest k v

/-- The miopenStatus_t values thrown by this translation unit (plus
`unknownError` for opaque failures of external collaborators). -/
inductive MiopenStatus where
  | success
  | badParm
  | notImplemented
  | invalidValue
  | versionMismatch
  | unknownError
  deriving DecidableEq, Repr

/-- One constructor per throw site reachable from the embedded code.  The
C++ code distinguishes failures by (status, message); the constructors
refine that: `RunError.status` and `RunError.message` recover the exact
arguments each `MIOPEN_THROW` receives in the source. -/
inductive RunError where
  /-- `Solution::Run`, workspace check: `MIOPEN_THROW(miopenStatusBadParm, solver + " requires at least " + required + " workspace, while " + provided + " was provided")`. -/
  | insufficientWorkspace (solver : String) (required provided : Nat)
  /-- `Solution::Run`, Activation/Bias arm: `MIOPEN_THROW(miopenStatusNotImplemented)` — operator not executable standalone. -/
  | notExecutable
  /-- `get_input_checked` / `Problem::GetTensorDescriptorChecked`: `MIOPEN_THROW(miopenStatusInvalidValue, "Problem is missing " + name_str + " tensor descriptor.")`. -/
  | missingArgument (name_str : String)
  /-- Backward shape check: `MIOPEN_THROW(miopenStatusBadParm)` with no message. -/
  | invalidShape
  /-- `invoke_ctx` switch, `default:` arm: `MIOPEN_THROW(miopenStatusNotImplemented)`. -/
  | unsupportedDirection
  /-- Fused `buffer_getter`, id not found: `MIOPEN_THROW(miopenStatusInvalidValue, "Problem is missing " + std::to_string(id) + " tensor descriptor.")`. -/
  | fusedMissingArgument (id : Nat)
  /-- Fused `buffer_getter`, descriptor rebind: `MIOPEN_THROW(miopenStatusNotImplemented, "Providing new descriptors for a fused solution is not supported.")`. -/
  | fusedRebind
  /-- Failure of the external `Problem::ValidateGroupCount` collaborator (not part of this translation unit); propagated unchanged. -/
  | groupCountError (msg : String)
  /-- `from_json` header check: `MIOPEN_THROW(miopenStatusInvalidValue, "Invalid buffer has been passed to the solution deserialization.")`. -/
  | corruptData
  /-- `from_json` header check: `MIOPEN_THROW(miopenStatusVersionMismatch, "Data from wrong version has been passed to the solution deserialization.")`. -/
  | versionMismatch
  /-- `nlohmann::json::at` on an absent key (json library exception). -/
  | jsonMissingKey (key : String)
  /-- `nlohmann::json::get` on a value of the wrong type (json library exception). -/
  | jsonTypeError
  deriving DecidableEq, Repr

/-- The status argument each throw site passes to `MIOPEN_THROW`. -/
def RunError.status : RunError → MiopenStatus
  | .insufficientWorkspace _ _ _ => .badParm
  | .notExecutable => .notImplemented
  | .missingArgument _ => .invalidValue
  | .invalidShape => .badParm
  | .unsupportedDirection => .notImplemented
  | .fusedMissingArgument _ => .invalidValue
  | .fusedRebind => .notImplemented
  | .groupCountError _ => .unknownError
  | .corruptData => .invalidValue
  | .versionMismatch => .versionMismatch
  | .jsonMissingKey _ => .unknownError
  | .jsonTypeError => .unknownError

/-- The message argument each throw site passes to `MIOPEN_THROW` (empty for
the message-less throws). -/
def RunError.message : RunError → String
  | .insufficientWorkspace s r p =>
      s ++ " requires at least " ++ toString r ++ " workspace, while " ++
        toString p ++ " was provided"
  | .missingArgument n => "Problem is missing " ++ n ++ " tensor descriptor."
  | .fusedMissingArgument id =>
      "Problem is missing " ++ toString id ++ " tensor descriptor."
  | .fusedRebind => "Providing new descriptors for a fused solution is not supported."
  | .corruptData => "Invalid buffer has been passed to the solution deserialization."
  | .versionMismatch => "Data from wrong version has been passed to the solution deserialization."
  | _ => ""

/-- Tensor descriptor, restricted to the one field this translation unit
reads (`GetLengths()`); everything else is carried opaquely by the external
collaborators. -/
structure TensorDescriptor where
  lengths : List Nat
  deriving DecidableEq, Repr

/-- `miopenTensorArgumentId_t`.  The convolution ids are the ones this file
names; `other` covers the remaining enumeration values used by fused plans.
The concrete numeric values are not in this translation unit; `code` models
`std::to_string(id)` for error messages (the spec says the core "is agnostic
to the concrete enumeration values beyond using them as mapping keys"). -/
inductive TensorArgumentId where
  | convolutionX
  | convolutionW
  | convolutionY
  | other (id : Nat)
  deriving DecidableEq, Repr

/-- Numeric value of the enumerator, as printed by `std::to_string`. -/
def TensorArgumentId.code : TensorArgumentId → Nat
  | .convolutionX => 1
  | .convolutionW => 2
  | .convolutionY => 3
  | .other id => id

/-- `miopenProblemDirection_t`.  `other` stands for any enumeration value
beyond the three the convolution pipeline supports; the `invoke_ctx` switch
in the source has a `default:` arm for it. -/
inductive Direction where
  | forward
  | backward
  | backwardWeights
  | other
  deriving DecidableEq, Repr

/-- `miopenConvolutionMode_t`, restricted to the comparison the source makes
(`conv_desc.mode == miopenTranspose`). -/
inductive ConvolutionMode where
  | convolution
  | transpose
  deriving DecidableEq, Repr

/-- The `attribute.gfx90aFp16alt` sub-object of a convolution descriptor:
three per-direction flags read via `GetFwd()`, `GetBwd()`, `GetWrW()`. -/
structure Gfx90aFp16alt where
  fwd : Bool
  bwd : Bool
  wrw : Bool
  deriving DecidableEq, Repr

/-- Convolution descriptor, restricted to the fields this translation unit
reads: the mode and the fp16-alternate attribute flags. -/
structure ConvolutionDescriptor where
  mode : ConvolutionMode
  gfx90aFp16alt : Gfx90aFp16alt
  deriving DecidableEq, Repr

/-- Activation descriptor: opaque to this translation unit. -/
structure ActivationDescriptor where
  deriving DecidableEq, Repr

/-- Bias descriptor: opaque to this translation unit. -/
structure BiasDescriptor where
  deriving DecidableEq, Repr

/-- The operator-descriptor variant held by a single-operator `Problem`. -/
inductive OperatorDescriptor where
  | conv (d : ConvolutionDescriptor)
  | activation (d : ActivationDescriptor)
  | bias (d : BiasDescriptor)
  deriving DecidableEq, Repr

/-- Modelled from the spec: the single-operator `Problem` class lives in
`problem.cpp`, which is not under src/.  Per §3 it holds an operator
descriptor, a direction, and a mapping from tensor-argument id to tensor
descriptor (not all ids need be populated). -/
structure Problem where
  operator_descriptor : OperatorDescriptor
  direction : Direction
  tensor_descriptors : List (TensorArgumentId × TensorDescriptor)
  deriving DecidableEq, Repr

/-- `Problem::GetDirection`. -/
def Problem.GetDirection (p : Problem) : Direction := p.direction

/-- Registry lookup of a tensor descriptor by argument id. -/
def Problem.findTensorDescriptor (p : Problem) (id : TensorArgumentId) :
    Option TensorDescriptor :=
  alistFind p.tensor_descriptors id

/-- Modelled from the spec: `Problem::GetTensorDescriptorChecked` (not under
src/) — per §4.1 it returns the Problem's registered descriptor for the id
and fails with MissingArgument ("Problem is missing <name> tensor
descriptor.") if the Problem has none. -/
def Problem.GetTensorDescriptorChecked (p : Problem) (name : TensorArgumentId)
    (name_str : String) : Except RunError TensorDescriptor :=
  match p.findTensorDescriptor name with
  | some d => .ok d
  | none => .error (.missingArgument name_str)

/-- Modelled from the spec: `Problem::RegisterTensorDescriptor` (not under
src/) binds a descriptor to an argument id, overwriting any previous
binding. -/
def Problem.RegisterTensorDescriptor (p : Problem) (id : TensorArgumentId)
    (descriptor : TensorDescriptor) : Problem :=
  { p with tensor_descriptors := alistInsert p.tensor_descriptors id descriptor }

/-- Modelled from the spec: `Problem::MakeTransposed` (not under src/).
Per §4.2 it "produces a new Problem via a structural make-transposed
operation"; the result is "the non-transpose form" of the problem (§8.5),
so the convolution mode of the operator descriptor becomes plain
convolution; direction and registered descriptors carry over (the caller,
`Solution::Transpose`, immediately re-registers the swapped descriptors). -/
def Problem.MakeTransposed (p : Problem) : Problem :=
  { p with
    operator_descriptor :=
      match p.operator_descriptor with
      | .conv d => .conv { d with mode := .convolution }
      | od => od }

/-- The convolution descriptor of a (convolution) problem:
`problem.AsConvolution().GetConv()`.  On a non-convolution operator the
C++ would throw; the convolution pipeline only reaches this with a
convolution operator, so a default descriptor stands in for the dead
branch. -/
def Problem.GetConv (p : Problem) : ConvolutionDescriptor :=
  match p.operator_descriptor with
  | .conv d => d
  | _ => { mode := .convolution, gfx90aFp16alt := ⟨false, false, false⟩ }

/-- Modelled from the spec: a fused problem (class `FusedProblem`, not under
src/) fixes its argument shapes at construction (§4.3: "fused plans are
immutable with respect to shape after creation"); `MakeInvokeParams` walks
the fused operator graph asking each sub-operator to bind its arguments via
a caller-supplied buffer getter.  The walk is modelled by the ordered list
of (argument id, fixed descriptor) pairs it binds. -/
structure FusedProblem where
  args : List (TensorArgumentId × TensorDescriptor)
  deriving DecidableEq, Repr

/-- `RunInput`: an optional tensor descriptor plus a data-buffer handle
(`Data_t` modelled as `Nat`). -/
structure RunInput where
  descriptor : Option TensorDescriptor
  buffer : Nat
  deriving DecidableEq, Repr

/-- `*input.descriptor` — the pipeline dereferences the optional only after
resolution has guaranteed it is populated; the default is a dead branch. -/
def RunInput.derefDesc (r : RunInput) : TensorDescriptor :=
  r.descriptor.getD ⟨[]⟩

/-- `solver::Id`, restricted to what this translation unit uses: a stable
identity string (spec §3/glossary). -/
structure SolverId where
  name : String
  deriving DecidableEq, Repr

/-- `solver::Id::ToString`. -/
def SolverId.ToString (s : SolverId) : String := s.name

/-- A prepared invoker; opaque to this translation unit. -/
structure Invoker where
  id : Nat
  deriving DecidableEq, Repr

/-- The `{invoker_factory, construction_params}` pair returned by the
external solver (`ConvSolution`); opaque payloads. -/
structure ConvSolution where
  invoker_factory : Nat
  construction_params : List Nat
  deriving DecidableEq, Repr

/-- The `boost::variant<Problem, FusedProblem>` inside the problem
container. -/
inductive ProblemContainerItem where
  | single (p : Problem)
  | fused (p : FusedProblem)
  deriving DecidableEq, Repr

/-- The problem container whose `.item` the source visits. -/
structure ProblemContainer where
  item : ProblemContainerItem
  deriving DecidableEq, Repr

/-- A `float` value modelled by its bit pattern: this core never inspects
`time` numerically, it only stores and round-trips it. -/
structure F32 where
  bits : Nat
  deriving DecidableEq, Repr

/-- `miopen::Solution`: solver identity, the problem it solves, estimated
time, required workspace bytes, and the optional tuning payload. -/
structure Solution where
  time : F32
  workspace_required : Nat
  solver : SolverId
  problem : ProblemContainer
  perf_cfg : Option String
  deriving DecidableEq, Repr

/-- `Solution::GetSolver`. -/
def Solution.GetSolver (s : Solution) : SolverId := s.solver

/-- The tensor triple of `conv::DataInvokeParams` /
`conv::WrWInvokeParams`: three (descriptor, buffer) pairs in the positional
order the constructor receives them. -/
structure ConvTensorTriple where
  firstDesc : TensorDescriptor
  firstBuf : Nat
  secondDesc : TensorDescriptor
  secondBuf : Nat
  thirdDesc : TensorDescriptor
  thirdBuf : Nat
  deriving DecidableEq, Repr

/-- `AnyInvokeParams`: the invocation-parameter variant the run builds. -/
inductive AnyInvokeParams where
  /-- `conv::DataInvokeParams{tensors, workspace, workspace_size, gfx90aFp16altFlag}`. -/
  | convData (tensors : ConvTensorTriple) (workspace workspace_size : Nat)
      (gfx90aAltImpl : Bool)
  /-- `conv::WrWInvokeParams{tensors, workspace, workspace_size, gfx90aFp16altFlag}`. -/
  | convWrW (tensors : ConvTensorTriple) (workspace workspace_size : Nat)
      (gfx90aAltImpl : Bool)
  /-- Fused invoke params: the buffers bound by the `MakeInvokeParams` walk. -/
  | fused (buffers : List Nat)
  deriving DecidableEq, Repr

/-- Observable actions of one `Run` call, in program order. -/
inductive Event where
  | checkNumericsInput (desc : TensorDescriptor) (buffer : Nat)
  | checkNumericsOutput (desc : TensorDescriptor) (buffer : Nat)
  | setupFloats
  | getDb
  | findSolutionCall (solver : String) (perf : String)
  | prepareInvokerCall
  | registerInvokerCall (net_cfg : String) (solver : String)
  | makeFusedSolutionCall (solver : String)
  | invoke (invoker : Invoker) (params : AnyInvokeParams)
  deriving DecidableEq, Repr

/-- Modelled from the spec: the execution handle's invoker cache (§6, §4.4)
— a mapping from (network-config signature, solver identity string) to
invoker, owned by the handle. -/
structure Handle where
  invokers : List ((String × String) × Invoker)
  deriving DecidableEq, Repr

/-- Modelled from the spec: `Handle::GetInvoker(signature, solverIdentity)
-> optional<Invoker>` (§6), keyed by (signature, solver identity string). -/
def Handle.GetInvoker (h : Handle) (net_cfg : String) (solver : String) :
    Option Invoker :=
  alistFind h.invokers (net_cfg, solver)

/-- Modelled from the spec: `Handle::RegisterInvoker(invoker, signature,
solverDisplayName)` (§6) inserts under the same (signature, solver string)
key that `GetInvoker` looks up. -/
def Handle.RegisterInvoker (h : Handle) (invoker : Invoker) (net_cfg : String)
    (solver : String) : Handle :=
  ⟨((net_cfg, solver), invoker) :: h.invokers⟩

/-- The external collaborators of `solution.cpp`, as opaque pure functions:
the global numeric-checking flag, `Problem::ValidateGroupCount`, network
config derivation (`MakeNetworkConfig`, deterministic in the resolved
problem per §3), the solver's `FindSolution`, `Handle::PrepareInvoker`, and
the fused-path equivalents. -/
structure Externals where
  checkNumericsEnabled : Bool
  validateGroupCount :
    TensorDescriptor → TensorDescriptor → ConvolutionDescriptor → Except String Unit
  makeNetworkConfig : Problem → String
  findSolution : SolverId → Problem → AnyInvokeParams → String → ConvSolution
  prepareInvoker : ConvSolution → Invoker
  fusedNetworkConfig : FusedProblem → String
  makeFusedSolution :
    SolverId → Option String → FusedProblem → AnyInvokeParams → ConvSolution

/-- The caller-supplied inputs: `std::unordered_map<miopenTensorArgumentId_t,
RunInput>`. -/
def InputMap : Type := List (TensorArgumentId × RunInput)

/-- Lookup in the caller-supplied input map (`inputs.find(name)`). -/
def InputMap.find (inputs : InputMap) (id : TensorArgumentId) : Option RunInput :=
  alistFind inputs id

/-- The `get_input_checked` lambda of `Solution::RunImpl` (solution.cpp
lines 135-146): look the id up in the caller inputs, fail if absent; if the
found `RunInput` has no descriptor, fill it from the Problem's registered
descriptor (failing if the Problem has none either). -/
def Solution.get_input_checked (problem_casted : Problem) (inputs : InputMap)
    (name : TensorArgumentId) (name_str : String) : Except RunError RunInput :=
  match inputs.find name with
  | none => .error (.missingArgument name_str)
  | some found =>
      if found.descriptor.isSome then .ok found
      else
        match problem_casted.GetTensorDescriptorChecked name name_str with
        | .error e => .error e
        | .ok d => .ok { found with descriptor := some d }

/-- `Solution::Transpose` (solution.cpp lines 275-289).  The C++ mutates
`*x` and `*y` through pointers (`std::swap(*x, *y)`); here the new values of
x and y are returned alongside the transposed problem: result is
(transposed problem, new x, new y). -/
def Solution.Transpose (problem : Problem) (x : RunInput) (w : RunInput)
    (y : RunInput) : Problem × RunInput × RunInput :=
  let transposed := problem.MakeTransposed
  let x2 := y
  let y2 := x
  let t1 := match x2.descriptor with
    | some d => transposed.RegisterTensorDescriptor .convolutionX d
    | none => transposed
  let t2 := match w.descriptor with
    | some d => t1.RegisterTensorDescriptor .convolutionW d
    | none => t1
  let t3 := match y2.descriptor with
    | some d => t2.RegisterTensorDescriptor .convolutionY d
    | none => t2
  (t3, x2, y2)

/-- Lines 148-153 of `Solution::RunImpl`: resolve the X/W/Y inputs and apply
the transpose rewrite when the operator descriptor is in transposed mode.
Returns (problem_, x, w, y) as the pipeline continues with them. -/
def Solution.resolveConvInputs (problem_casted : Problem)
    (conv_desc : ConvolutionDescriptor) (inputs : InputMap) :
    Except RunError (Problem × RunInput × RunInput × RunInput) :=
  match Solution.get_input_checked problem_casted inputs .convolutionX
      "miopenTensorConvolutionX" with
  | .error e => .error e
  | .ok x =>
    match Solution.get_input_checked problem_casted inputs .convolutionW
        "miopenTensorConvolutionW" with
    | .error e => .error e
    | .ok w =>
      match Solution.get_input_checked problem_casted inputs .convolutionY
          "miopenTensorConvolutionY" with
      | .error e => .error e
      | .ok y =>
        if conv_desc.mode = .transpose then
          let t := Solution.Transpose problem_casted x w y
          .ok (t.1, t.2.1, w, t.2.2)
        else
          .ok (problem_casted, x, w, y)

/-- The `invoke_ctx` immediately-invoked lambda (solution.cpp lines
175-198): direction-specific invocation parameters, or the `default:`
throw for an unsupported direction. -/
def Solution.buildConvInvokeParams (problem_ : Problem) (x w y : RunInput)
    (workspace workspace_size : Nat) : Except RunError AnyInvokeParams :=
  match problem_.GetDirection with
  | .forward =>
      .ok (.convData
        ⟨x.derefDesc, x.buffer, w.derefDesc, w.buffer, y.derefDesc, y.buffer⟩
        workspace workspace_size problem_.GetConv.gfx90aFp16alt.fwd)
  | .backward =>
      .ok (.convData
        ⟨y.derefDesc, y.buffer, w.derefDesc, w.buffer, x.derefDesc, x.buffer⟩
        workspace workspace_size problem_.GetConv.gfx90aFp16alt.bwd)
  | .backwardWeights =>
      .ok (.convWrW
        ⟨y.derefDesc, y.buffer, x.derefDesc, x.buffer, w.derefDesc, w.buffer⟩
        workspace workspace_size problem_.GetConv.gfx90aFp16alt.wrw)
  | .other => .error .unsupportedDirection

/-- The numeric-input checks (solution.cpp lines 161-169), as the trace of
events they emit: every tensor that is an input for the direction (the
designated output is skipped).  Empty when the global flag is off. -/
def Solution.numericsInputEvents (checkNumericsEnabled : Bool)
    (problem_ : Problem) (x w y : RunInput) : List Event :=
  if checkNumericsEnabled then
    (if problem_.GetDirection ≠ .backward then
        [Event.checkNumericsInput x.derefDesc x.buffer] else []) ++
    (if problem_.GetDirection ≠ .backwardWeights then
        [Event.checkNumericsInput w.derefDesc w.buffer] else []) ++
    (if problem_.GetDirection ≠ .forward then
        [Event.checkNumericsInput y.derefDesc y.buffer] else [])
  else []

/-- The `checkNumericsOutput_` lambda (solution.cpp lines 203-213), as the
trace of events it emits when called after invocation. -/
def Solution.numericsOutputEvents (checkNumericsEnabled : Bool)
    (problem_ : Problem) (x w y : RunInput) : List Event :=
  if checkNumericsEnabled then
    (if problem_.GetDirection = .backward then
        [Event.checkNumericsOutput x.derefDesc x.buffer] else []) ++
    (if problem_.GetDirection = .backwardWeights then
        [Event.checkNumericsOutput w.derefDesc w.buffer] else []) ++
    (if problem_.GetDirection = .forward then
        [Event.checkNumericsOutput y.derefDesc y.buffer] else [])
  else []

/-- Lines 155-233 of `Solution::RunImpl(…, const ConvolutionDescriptor&)`:
the continuation of the pipeline after input resolution, taking the
resolved (problem_, x, w, y).  The backward shape check, the numeric input
checks, `ValidateGroupCount`, the `invoke_ctx` construction, the cache
lookup, and on a miss the resolution fallback
(`FindSolution`/`PrepareInvoker`/`RegisterInvoker`) followed by the
invocation. -/
def Solution.runResolvedConv (ext : Externals) (sol : Solution)
    (handle : Handle) (workspace workspace_size : Nat) (problem_ : Problem)
    (x w y : RunInput) : List Event × Except RunError Handle :=
    if problem_.GetDirection = .backward ∧
        y.derefDesc.lengths.getD 1 0 ≠ w.derefDesc.lengths.getD 0 0 then
      ([], .error .invalidShape)
    else
      match ext.validateGroupCount x.derefDesc w.derefDesc problem_.GetConv with
      | .error msg =>
          (Solution.numericsInputEvents ext.checkNumericsEnabled problem_ x w y,
           .error (.groupCountError msg))
      | .ok _ =>
        match Solution.buildConvInvokeParams problem_ x w y workspace
            workspace_size with
        | .error e =>
            (Solution.numericsInputEvents ext.checkNumericsEnabled problem_ x w y,
             .error e)
        | .ok invoke_ctx =>
          match handle.GetInvoker (ext.makeNetworkConfig problem_)
              sol.GetSolver.ToString with
          | some found_invoker =>
              (Solution.numericsInputEvents ext.checkNumericsEnabled problem_
                   x w y ++
                 [Event.invoke found_invoker invoke_ctx] ++
                 Solution.numericsOutputEvents ext.checkNumericsEnabled problem_
                   x w y,
               .ok handle)
          | none =>
              (Solution.numericsInputEvents ext.checkNumericsEnabled problem_
                   x w y ++
                 [Event.setupFloats, Event.getDb,
                  Event.findSolutionCall sol.GetSolver.ToString
                    (sol.perf_cfg.getD ""),
                  Event.prepareInvokerCall,
                  Event.registerInvokerCall (ext.makeNetworkConfig problem_)
                    sol.GetSolver.ToString,
                  Event.invoke
                    (ext.prepareInvoker (ext.findSolution sol.GetSolver problem_
                       invoke_ctx (sol.perf_cfg.getD "")))
                    invoke_ctx] ++
                 Solution.numericsOutputEvents ext.checkNumericsEnabled problem_
                   x w y,
               .ok (handle.RegisterInvoker
                 (ext.prepareInvoker (ext.findSolution sol.GetSolver problem_
                    invoke_ctx (sol.perf_cfg.getD "")))
                 (ext.makeNetworkConfig problem_) sol.GetSolver.ToString))

/-- `Solution::RunImpl(handle, inputs, workspace, workspace_size,
conv_desc)` (solution.cpp lines 127-233).  Returns the event trace emitted
up to the point of return or throw, and either the updated handle or the
thrown error. -/
def Solution.RunImplConv (ext : Externals) (sol : Solution) (handle : Handle)
    (inputs : InputMap) (workspace workspace_size : Nat)
    (conv_desc : ConvolutionDescriptor) (problem_casted : Problem) :
    List Event × Except RunError Handle :=
  match Solution.resolveConvInputs problem_casted conv_desc inputs with
  | .error e => ([], .error e)
  | .ok (problem_, x, w, y) =>
      Solution.runResolvedConv ext sol handle workspace workspace_size
        problem_ x w y

/-- The `buffer_getter` lambda of the fused `Solution::RunImpl`
(solution.cpp lines 241-250): fail if the id is absent from the caller
inputs; fail if the caller supplies a descriptor differing from the one the
fused plan fixed; otherwise return the buffer. -/
def Solution.buffer_getter (inputs : InputMap) (id : TensorArgumentId)
    (descriptor : TensorDescriptor) : Except RunError Nat :=
  match inputs.find id with
  | none => .error (.fusedMissingArgument id.code)
  | some found =>
      match found.descriptor with
      | some d => if d ≠ descriptor then .error .fusedRebind else .ok found.buffer
      | none => .ok found.buffer

/-- The walk underlying `FusedProblem::MakeInvokeParams`: bind each fixed
(id, descriptor) argument in order through the getter, stopping at the
first failure. -/
def FusedProblem.bindArgs
    (getter : TensorArgumentId → TensorDescriptor → Except RunError Nat) :
    List (TensorArgumentId × TensorDescriptor) → Except RunError (List Nat)
  | [] => .ok []
  | a :: rest =>
      match getter a.1 a.2 with
      | .error e => .error e
      | .ok buf =>
          match FusedProblem.bindArgs getter rest with
          | .error e => .error e
          | .ok bufs => .ok (buf :: bufs)

/-- Modelled from the spec: `FusedProblem::MakeInvokeParams` (not under
src/) walks the fused operator graph binding each fixed (id, descriptor)
argument in order through the caller-supplied getter (§4.3). -/
def FusedProblem.MakeInvokeParams (fp : FusedProblem)
    (getter : TensorArgumentId → TensorDescriptor → Except RunError Nat) :
    Except RunError AnyInvokeParams :=
  match FusedProblem.bindArgs getter fp.args with
  | .error e => .error e
  | .ok buffers => .ok (.fused buffers)

/-- `Solution::RunImpl(handle, inputs, _, _, fused_problem)` (solution.cpp
lines 235-273). -/
def Solution.RunImplFused (ext : Externals) (sol : Solution) (handle : Handle)
    (inputs : InputMap) (problem_ : FusedProblem) :
    List Event × Except RunError Handle :=
  match problem_.MakeInvokeParams (Solution.buffer_getter inputs) with
  | .error e => ([], .error e)
  | .ok invoke_params =>
    match handle.GetInvoker (ext.fusedNetworkConfig problem_)
        sol.GetSolver.ToString with
    | some found_invoker =>
        ([Event.invoke found_invoker invoke_params], .ok handle)
    | none =>
        ([Event.makeFusedSolutionCall sol.GetSolver.ToString,
          Event.prepareInvokerCall,
          Event.registerInvokerCall (ext.fusedNetworkConfig problem_)
            sol.GetSolver.ToString,
          Event.invoke
            (ext.prepareInvoker (ext.makeFusedSolution sol.solver sol.perf_cfg
               problem_ invoke_params))
            invoke_params],
         .ok (handle.RegisterInvoker
           (ext.prepareInvoker (ext.makeFusedSolution sol.solver sol.perf_cfg
              problem_ invoke_params))
           (ext.fusedNetworkConfig problem_) sol.GetSolver.ToString))

/-- `Solution::Run` (solution.cpp lines 52-85): the workspace check, then
the visit over the problem variant — convolution dispatches to the
single-operator pipeline, Activation/Bias throw NotImplemented, fused
dispatches to the fused pipeline. -/
def Solution.Run (ext : Externals) (sol : Solution) (handle : Handle)
    (inputs : InputMap) (workspace workspace_size : Nat) :
    List Event × Except RunError Handle :=
  if workspace_size < sol.workspace_required then
    ([], .error (.insufficientWorkspace sol.GetSolver.ToString
       sol.workspace_required workspace_size))
  else
    match sol.problem.item with
    | .single problem_ =>
        match problem_.operator_descriptor with
        | .conv op_desc =>
            Solution.RunImplConv ext sol handle inputs workspace workspace_size
              op_desc problem_
        | .activation _ => ([], .error .notExecutable)
        | .bias _ => ([], .error .notExecutable)
    | .fused problem_ => Solution.RunImplFused ext sol handle inputs problem_

/-- Modelled from the spec: the serialization header constants
(`SerializationMetadata::Current()`, declared in solution.hpp which is not
under src/) — "a fixed pair of constants identifying this is a Solution
record and in this format revision" (§4.6).  The concrete values are not in
this translation unit; only equality with them matters. -/
def currentValidationNumber : Nat := 123456789

/-- Modelled from the spec: the current serialization format version (see
`currentValidationNumber`). -/
def currentSerializationVersion : Nat := 1

/-- `Solution::SerializationMetadata`: validation magic plus format
version. -/
structure SerializationMetadata where
  validation_number : Nat
  version : Nat
  deriving DecidableEq, Repr

/-- `SerializationMetadata::Current()`. -/
def SerializationMetadata.Current : SerializationMetadata :=
  ⟨currentValidationNumber, currentSerializationVersion⟩

/-- A JSON value stored in one field of the serialized Solution record.
`num` is an unsigned integer, `fnum` a float held by bit pattern, `str` a
string.  `sub` is the header sub-object (string-keyed numbers).  `prob` is
the problem sub-tree: the Problem's own JSON conversion lives in
problem.cpp (not under src/) and, modelled from the spec (§8.6 treats it as
value-preserving), the container is stored in the record verbatim. -/
inductive JVal where
  | num (n : Nat)
  | fnum (bits : Nat)
  | str (s : String)
  | sub (fields : List (String × Nat))
  | prob (p : ProblemContainer)
  deriving DecidableEq, Repr

/-- A JSON object: the ordered fields of the record. -/
structure Json where
  fields : List (String × JVal)
  deriving DecidableEq, Repr

/-- `json.at(key)`: lookup, throwing (json library exception) when the key
is absent. -/
def Json.atKey (j : Json) (key : String) : Except RunError JVal :=
  match alistFind j.fields key with
  | some v => .ok v
  | none => .error (.jsonMissingKey key)

/-- `json.find(key)`: lookup returning end() (here `none`) when absent. -/
def Json.findKey (j : Json) (key : String) : Option JVal :=
  alistFind j.fields key

/-- `to_json(json, metadata)` (solution.cpp lines 291-297): the header
sub-object `{"validation": …, "version": …}`. -/
def SerializationMetadata.to_json (metadata : SerializationMetadata) : JVal :=
  .sub [("validation", metadata.validation_number), ("version", metadata.version)]

/-- `from_json(json, metadata)` (solution.cpp lines 298-302): read
`validation` and `version` from the header sub-object. -/
def SerializationMetadata.from_json (v : JVal) :
    Except RunError SerializationMetadata :=
  match v with
  | .sub fields =>
      match alistFind fields "validation" with
      | none => .error (.jsonMissingKey "validation")
      | some vn =>
          match alistFind fields "version" with
          | none => .error (.jsonMissingKey "version")
          | some ver => .ok ⟨vn, ver⟩
  | _ => .error .jsonTypeError

/-- `to_json(json, solution)` (solution.cpp lines 304-316): header, time,
workspace, solver display string, problem; `perf_cfg` appended only when
present. -/
def Solution.to_json (solution : Solution) : Json :=
  let base : Json :=
    ⟨[("header", SerializationMetadata.Current.to_json),
      ("time", .fnum solution.time.bits),
      ("workspace", .num solution.workspace_required),
      ("solver", .str solution.solver.ToString),
      ("problem", .prob solution.problem)]⟩
  match solution.perf_cfg with
  | some cfg => ⟨base.fields ++ [("perf_cfg", .str cfg)]⟩
  | none => base

/-- Reading the header in `from_json` (solution.cpp line 321):
`json.at("header").get<SerializationMetadata>()`. -/
def Json.getHeader (j : Json) : Except RunError SerializationMetadata :=
  match j.atKey "header" with
  | .error e => .error e
  | .ok hv => SerializationMetadata.from_json hv

/-- `from_json(json, solution)` (solution.cpp lines 318-346).  The C++
mutates the destination in place and throws on failure, leaving fields
assigned so far; this is modelled by threading the destination and
returning it together with the thrown error (`none` on success): header
checks first (no assignment), then sequential field assignment. -/
def Solution.from_json (json : Json) (solution : Solution) :
    Solution × Option RunError :=
  match json.getHeader with
  | .error e => (solution, some e)
  | .ok header =>
    if header.validation_number ≠ SerializationMetadata.Current.validation_number
    then (solution, some .corruptData)
    else if header.version ≠ SerializationMetadata.Current.version then
      (solution, some .versionMismatch)
    else
      match json.atKey "time" with
      | .error e => (solution, some e)
      | .ok tv =>
        match tv with
        | .fnum bits =>
          let solution := { solution with time := ⟨bits⟩ }
          match json.atKey "workspace" with
          | .error e => (solution, some e)
          | .ok wv =>
            match wv with
            | .num n =>
              let solution := { solution with workspace_required := n }
              match json.atKey "solver" with
              | .error e => (solution, some e)
              | .ok sv =>
                match sv with
                | .str s =>
                  let solution := { solution with solver := ⟨s⟩ }
                  match json.atKey "problem" with
                  | .error e => (solution, some e)
                  | .ok pv =>
                    match pv with
                    | .prob p =>
                      let solution := { solution with problem := p }
                      match json.findKey "perf_cfg" with
                      | none => ({ solution with perf_cfg := none }, none)
                      | some cv =>
                        match cv with
                        | .str c => ({ solution with perf_cfg := some c }, none)
                        | _ => (solution, some .jsonTypeError)
                    | _ => (solution, some .jsonTypeError)
                | _ => (solution, some .jsonTypeError)
            | _ => (solution, some .jsonTypeError)
        | _ => (solution, some .jsonTypeError)

/-- Concrete externals used to evaluate the pipeline on sample data. -/
def extSample : Externals :=
  { checkNumericsEnabled := false
    validateGroupCount := fun _ _ _ => .ok ()
    makeNetworkConfig := fun _ => "netcfg"
    findSolution := fun _ _ _ _ => ⟨0, [1, 2]⟩
    prepareInvoker := fun cs => ⟨cs.invoker_factory + 7⟩
    fusedNetworkConfig := fun _ => "fusednetcfg"
    makeFusedSolution := fun _ _ _ _ => ⟨1, []⟩ }

/-- Sample input descriptor: 5×3×32×32 NCHW image. -/
def descSampleX : TensorDescriptor := ⟨[5, 3, 32, 32]⟩

/-- Sample weight descriptor: 64 output channels, 3×3 kernel. -/
def descSampleW : TensorDescriptor := ⟨[64, 3, 3, 3]⟩

/-- Sample output descriptor. -/
def descSampleY : TensorDescriptor := ⟨[5, 64, 30, 30]⟩

/-- Sample forward convolution problem with all three descriptors
registered. -/
def probSample : Problem :=
  { operator_descriptor := .conv ⟨.convolution, ⟨false, false, false⟩⟩
    direction := .forward
    tensor_descriptors :=
      [(.convolutionX, descSampleX), (.convolutionW, descSampleW),
       (.convolutionY, descSampleY)] }

/-- Sample transpose-mode convolution problem. -/
def probSampleT : Problem :=
  { probSample with
    operator_descriptor := .conv ⟨.transpose, ⟨false, false, false⟩⟩ }

/-- Sample solution for the forward problem. -/
def solSample : Solution :=
  ⟨⟨0⟩, 0, ⟨"ConvDirectNaiveFwd"⟩, ⟨.single probSample⟩, none⟩

/-- Sample caller inputs: buffers only, descriptors left to the problem. -/
def inputsSample : InputMap :=
  [(.convolutionX, ⟨none, 10⟩), (.convolutionW, ⟨none, 11⟩),
   (.convolutionY, ⟨none, 12⟩)]

/-- An empty invoker cache. -/
def handleEmpty : Handle := ⟨[]⟩


/-- A record whose header carries a wrong validation number. -/
def jsonBadValidation : Json :=
  ⟨[("header", .sub [("validation", currentValidationNumber + 1),
      ("version", currentSerializationVersion)]),
    ("time", .fnum 0), ("workspace", .num 0), ("solver", .str "s"),
    ("problem", .prob ⟨.single probSample⟩)]⟩

/-- A record whose header carries a correct validation number but a wrong
version. -/
def jsonBadVersion : Json :=
  ⟨[("header", .sub [("validation", currentValidationNumber),
      ("version", currentSerializationVersion + 1)]),
    ("time", .fnum 0), ("workspace", .num 0), ("solver", .str "s"),
    ("problem", .prob ⟨.single probSample⟩)]⟩


/-- Sample solution requiring 4 bytes of workspace. -/
def solSampleWs : Solution :=
  ⟨⟨0⟩, 4, ⟨"ConvDirectNaiveFwd"⟩, ⟨.single probSample⟩, none⟩

/-- Caller inputs missing the Y argument. -/
def inputsNoY : InputMap :=
  [(.convolutionX, ⟨none, 10⟩), (.convolutionW, ⟨none, 11⟩)]

/-- Output descriptor whose channel count (63) does not match the weight
descriptor's output-channel count (64). -/
def descSampleYBad : TensorDescriptor := ⟨[5, 63, 30, 30]⟩

/-- Backward-direction problem whose registered Y descriptor mismatches the
weight descriptor's output channels. -/
def probSampleBwdBad : Problem :=
  { operator_descriptor := .conv ⟨.convolution, ⟨false, false, false⟩⟩
    direction := .backward
    tensor_descriptors :=
      [(.convolutionX, descSampleX), (.convolutionW, descSampleW),
       (.convolutionY, descSampleYBad)] }

/-- Sample solution over the mismatched backward problem. -/
def solSampleBwdBad : Solution :=
  ⟨⟨0⟩, 0, ⟨"ConvDirectNaiveBwd"⟩, ⟨.single probSampleBwdBad⟩, none⟩


/-- Sample solution over the transpose-mode problem. -/
def solSampleT : Solution :=
  ⟨⟨0⟩, 0, ⟨"ConvTransposeSolver"⟩, ⟨.single probSampleT⟩, none⟩


/-- Sample standalone activation problem. -/
def probActSample : Problem :=
  { operator_descriptor := .activation ⟨⟩
    direction := .forward
    tensor_descriptors := [] }

/-- Sample solution over the standalone activation problem. -/
def solActSample : Solution :=
  ⟨⟨0⟩, 0, ⟨"ActivationSolver"⟩, ⟨.single probActSample⟩, none⟩

/-- Whether an event is the solver-resolution `FindSolution` call. -/
def Event.isFindSolution : Event → Bool
  | .findSolutionCall _ _ => true
  | _ => false

/-- Whether an event is a `PrepareInvoker` call. -/
def Event.isPrepareInvoker : Event → Bool
  | .prepareInvokerCall => true
  | _ => false

/-- Whether an event is a `RegisterInvoker` call (a cache insertion). -/
def Event.isRegisterInvoker : Event → Bool
  | .registerInvokerCall _ _ => true
  | _ => false

/-- Whether an event is a device invocation. -/
def Event.isInvoke : Event → Bool
  | .invoke _ _ => true
  | _ => false

/-- Number of `FindSolution` calls in a trace. -/
def countFindSolution (events : List Event) : Nat :=
  (events.filter Event.isFindSolution).length

/-- Number of `PrepareInvoker` calls in a trace. -/
def countPrepareInvoker (events : List Event) : Nat :=
  (events.filter Event.isPrepareInvoker).length

/-- Number of `RegisterInvoker` calls in a trace. -/
def countRegisterInvoker (events : List Event) : Nat :=
  (events.filter Event.isRegisterInvoker).length

/-- Number of device invocations in a trace. -/
def countInvoke (events : List Event) : Nat :=
  (events.filter Event.isInvoke).length


/-!  Helper lemmas shared by the claim theorems: error classification per
pipeline stage, trace emptiness for pre-invocation failures, and reduction
of `Solution.Run` to the convolution pipeline. -/

theorem get_input_checked_error (pc : Problem) (inputs : InputMap)
    (name : TensorArgumentId) (name_str : String) (e : RunError)
    (h : Solution.get_input_checked pc inputs name name_str = .error e) :
    e = .missingArgument name_str := by
  unfold Solution.get_input_checked Problem.GetTensorDescriptorChecked at h
  split at h
  · simp_all
  · split at h
    · simp_all
    · split at h
      · rename_i e' heq
        split at heq <;> simp_all
      · simp_all

theorem get_input_checked_ok_isSome (pc : Problem) (inputs : InputMap)
    (name : TensorArgumentId) (name_str : String) (r : RunInput)
    (h : Solution.get_input_checked pc inputs name name_str = .ok r) :
    r.descriptor.isSome := by
  unfold Solution.get_input_checked Problem.GetTensorDescriptorChecked at h
  split at h
  · simp_all
  · split at h
    · simp_all
    · split at h
      · simp_all
      · rename_i d heq
        cases h
        simp

theorem resolveConvInputs_error (pc : Problem) (cd : ConvolutionDescriptor)
    (inputs : InputMap) (e : RunError)
    (h : Solution.resolveConvInputs pc cd inputs = .error e) :
    ∃ n, e = .missingArgument n := by
  unfold Solution.resolveConvInputs at h
  split at h
  · rename_i heq
    cases h
    exact ⟨_, get_input_checked_error _ _ _ _ _ heq⟩
  · split at h
    · rename_i heq
      cases h
      exact ⟨_, get_input_checked_error _ _ _ _ _ heq⟩
    · split at h
      · rename_i heq
        cases h
        exact ⟨_, get_input_checked_error _ _ _ _ _ heq⟩
      · split at h <;> simp_all

theorem buildConvInvokeParams_error (p_ : Problem) (x w y : RunInput)
    (ws wss : Nat) (e : RunError)
    (h : Solution.buildConvInvokeParams p_ x w y ws wss = .error e) :
    e = .unsupportedDirection ∧ p_.GetDirection = .other := by
  unfold Solution.buildConvInvokeParams at h
  split at h <;> simp_all

theorem runResolvedConv_error_classes (ext : Externals) (sol : Solution)
    (handle : Handle) (ws wss : Nat) (problem_ : Problem) (x w y : RunInput)
    (e : RunError)
    (h : (Solution.runResolvedConv ext sol handle ws wss problem_ x w y).2 =
      .error e) :
    e = .invalidShape ∨ (∃ m, e = .groupCountError m) ∨
      e = .unsupportedDirection := by
  unfold Solution.runResolvedConv at h
  split at h
  · simp only at h
    injection h with h
    exact Or.inl h.symm
  · split at h
    · rename_i msg heq
      simp only at h
      injection h with h
      exact Or.inr (Or.inl ⟨msg, h.symm⟩)
    · split at h
      · rename_i e' heq
        simp only at h
        injection h with h
        subst h
        exact Or.inr (Or.inr (buildConvInvokeParams_error _ _ _ _ _ _ _ heq).1)
      · split at h <;> simp_all

theorem runImplConv_error_classes (ext : Externals) (sol : Solution)
    (handle : Handle) (inputs : InputMap) (ws wss : Nat)
    (cd : ConvolutionDescriptor) (pc : Problem) (e : RunError)
    (h : (Solution.RunImplConv ext sol handle inputs ws wss cd pc).2 = .error e) :
    (∃ n, e = .missingArgument n) ∨ e = .invalidShape ∨
      (∃ m, e = .groupCountError m) ∨ e = .unsupportedDirection := by
  unfold Solution.RunImplConv at h
  split at h
  · rename_i e' heq
    simp only at h
    injection h with h
    subst h
    exact Or.inl (resolveConvInputs_error _ _ _ _ heq)
  · exact Or.inr (runResolvedConv_error_classes _ _ _ _ _ _ _ _ _ _ h)

theorem runImplConv_missing_trace (ext : Externals) (sol : Solution)
    (handle : Handle) (inputs : InputMap) (ws wss : Nat)
    (cd : ConvolutionDescriptor) (pc : Problem) (n : String)
    (h : (Solution.RunImplConv ext sol handle inputs ws wss cd pc).2 =
      .error (.missingArgument n)) :
    (Solution.RunImplConv ext sol handle inputs ws wss cd pc).1 = [] := by
  unfold Solution.RunImplConv at h ⊢
  split at h
  · simp_all
  · rcases runResolvedConv_error_classes _ _ _ _ _ _ _ _ _ _ h
        with h1 | ⟨m, h1⟩ | h1 <;> simp_all

theorem buffer_getter_error (inputs : InputMap) (id : TensorArgumentId)
    (descriptor : TensorDescriptor) (e : RunError)
    (h : Solution.buffer_getter inputs id descriptor = .error e) :
    e = .fusedMissingArgument id.code ∨ e = .fusedRebind := by
  unfold Solution.buffer_getter at h
  split at h
  · simp_all
  · split at h
    · split at h <;> simp_all
    · simp_all

theorem bindArgs_error (inputs : InputMap)
    (args : List (TensorArgumentId × TensorDescriptor)) (e : RunError)
    (h : FusedProblem.bindArgs (Solution.buffer_getter inputs) args = .error e) :
    (∃ n, e = .fusedMissingArgument n) ∨ e = .fusedRebind := by
  induction args with
  | nil => simp [FusedProblem.bindArgs] at h
  | cons a rest ih =>
    unfold FusedProblem.bindArgs at h
    split at h
    · rename_i e' heq
      injection h with h
      subst h
      rcases buffer_getter_error _ _ _ _ heq with h1 | h1
      · exact Or.inl ⟨_, h1⟩
      · exact Or.inr h1
    · split at h
      · rename_i e3 heq3
        injection h with h
        subst h
        exact ih heq3
      · simp_all

theorem runImplFused_error_classes (ext : Externals) (sol : Solution)
    (handle : Handle) (inputs : InputMap) (fp : FusedProblem) (e : RunError)
    (h : (Solution.RunImplFused ext sol handle inputs fp).2 = .error e) :
    (∃ n, e = .fusedMissingArgument n) ∨ e = .fusedRebind := by
  unfold Solution.RunImplFused FusedProblem.MakeInvokeParams at h
  split at h
  · rename_i e' heq
    split at heq
    · rename_i e2 heq2
      injection heq with heq
      subst heq
      simp only at h
      injection h with h
      subst h
      exact bindArgs_error _ _ _ heq2
    · cases heq
  · split at h <;> simp_all

theorem runImplFused_missing_trace (ext : Externals) (sol : Solution)
    (handle : Handle) (inputs : InputMap) (fp : FusedProblem) (n : Nat)
    (h : (Solution.RunImplFused ext sol handle inputs fp).2 =
      .error (.fusedMissingArgument n)) :
    (Solution.RunImplFused ext sol handle inputs fp).1 = [] := by
  unfold Solution.RunImplFused at h ⊢
  split at h
  · simp_all
  · split at h <;> simp_all

theorem run_reduces_conv (ext : Externals) (sol : Solution) (handle : Handle)
    (inputs : InputMap) (ws wss : Nat) (pc : Problem)
    (cd : ConvolutionDescriptor)
    (hitem : sol.problem.item = .single pc)
    (hop : pc.operator_descriptor = .conv cd)
    (hws : ¬ wss < sol.workspace_required) :
    Solution.Run ext sol handle inputs ws wss =
      Solution.RunImplConv ext sol handle inputs ws wss cd pc := by
  unfold Solution.Run
  rw [if_neg hws]
  simp only [hitem, hop]

theorem runResolvedConv_shape (ext : Externals) (sol : Solution)
    (handle : Handle) (ws wss : Nat) (p_ : Problem) (x w y : RunInput) :
    (p_.GetDirection = .backward ∧
        y.derefDesc.lengths.getD 1 0 ≠ w.derefDesc.lengths.getD 0 0 →
       Solution.runResolvedConv ext sol handle ws wss p_ x w y =
         ([], .error .invalidShape)) ∧
    (∀ evs, Solution.runResolvedConv ext sol handle ws wss p_ x w y =
        (evs, .error .invalidShape) →
       (p_.GetDirection = .backward ∧
          y.derefDesc.lengths.getD 1 0 ≠ w.derefDesc.lengths.getD 0 0) ∧
         evs = []) := by
  constructor
  · intro hcond
    unfold Solution.runResolvedConv
    exact if_pos hcond
  · intro evs h
    unfold Solution.runResolvedConv at h
    split at h
    · rename_i hcond
      simp only [Prod.mk.injEq] at h
      exact ⟨hcond, h.1.symm⟩
    · split at h
      · simp_all
      · split at h
        · rename_i e' heq
          have := (buildConvInvokeParams_error _ _ _ _ _ _ _ heq).1
          simp_all
        · split at h <;> simp_all

/-- C5: Serialization round-trip — encoding any Solution with `to_json` and
decoding with `from_json` succeeds (no error) and yields a Solution equal
in every field (time, workspace_required, solver identity string, problem,
perf_cfg) to the original, including when perf_cfg is absent. -/
theorem solution_json_round_trip (sol dest : Solution) :
    Solution.from_json (Solution.to_json sol) dest = (sol, none) := by
  cases sol with
  | mk time ws solver prob perf => cases perf <;> rfl

/-- C6: Header discrimination on decode — `from_json` reads the header
first; a wrong validation number fails with CorruptData regardless of the
other fields, a correct validation number with a wrong version fails with
VersionMismatch; the two failures are distinct (also in status), and no
destination field is assigned in either case (the returned destination is
untouched, witnessing that the non-header fields are only read after both
checks pass). -/
theorem from_json_header_discrimination (j : Json) (dest : Solution)
    (h : SerializationMetadata) (hheader : j.getHeader = .ok h) :
    (h.validation_number ≠ SerializationMetadata.Current.validation_number →
       Solution.from_json j dest = (dest, some .corruptData)) ∧
    (h.validation_number = SerializationMetadata.Current.validation_number →
     h.version ≠ SerializationMetadata.Current.version →
       Solution.from_json j dest = (dest, some .versionMismatch)) ∧
    RunError.corruptData ≠ RunError.versionMismatch ∧
    RunError.corruptData.status ≠ RunError.versionMismatch.status := by
  refine ⟨?_, ?_, by decide, by decide⟩
  · intro hvn
    unfold Solution.from_json
    rw [hheader]
    simp only [if_pos hvn]
  · intro hvn hver
    unfold Solution.from_json
    rw [hheader]
    exact (if_neg (fun hne => hne hvn)).trans (if_pos hver)

/-- C6 witness: concrete bad-validation and bad-version records fail with
the two distinct errors. -/
theorem from_json_header_discrimination_witness :
    Solution.from_json jsonBadValidation solSample =
      (solSample, some .corruptData) ∧
    Solution.from_json jsonBadVersion solSample =
      (solSample, some .versionMismatch) :=
  ⟨(from_json_header_discrimination jsonBadValidation solSample
      ⟨currentValidationNumber + 1, currentSerializationVersion⟩ rfl).1
      (by decide),
   (from_json_header_discrimination jsonBadVersion solSample
      ⟨currentValidationNumber, currentSerializationVersion + 1⟩ rfl).2.1
      rfl (by decide)⟩

/-- C10: Decode atomicity — when the header fails validation (wrong
validation number, or right validation number but wrong version),
`from_json` returns before assigning any field, so every field of the
destination Solution keeps its prior value. -/
theorem from_json_header_failure_atomic (j : Json) (dest : Solution)
    (h : SerializationMetadata) (hheader : j.getHeader = .ok h)
    (hbad : h.validation_number ≠ SerializationMetadata.Current.validation_number ∨
      (h.validation_number = SerializationMetadata.Current.validation_number ∧
        h.version ≠ SerializationMetadata.Current.version)) :
    (Solution.from_json j dest).1.time = dest.time ∧
    (Solution.from_json j dest).1.workspace_required = dest.workspace_required ∧
    (Solution.from_json j dest).1.solver = dest.solver ∧
    (Solution.from_json j dest).1.problem = dest.problem ∧
    (Solution.from_json j dest).1.perf_cfg = dest.perf_cfg := by
  have hd : (Solution.from_json j dest).1 = dest := by
    unfold Solution.from_json
    rw [hheader]
    rcases hbad with hvn | ⟨hvn, hver⟩
    · exact congrArg Prod.fst (if_pos hvn)
    · exact congrArg Prod.fst ((if_neg (fun hne => hne hvn)).trans (if_pos hver))
  rw [hd]
  exact ⟨rfl, rfl, rfl, rfl, rfl⟩

/-- C10 witness: at a concrete record with a wrong version, the destination
is unchanged. -/
theorem from_json_header_failure_atomic_witness :
    (Solution.from_json jsonBadVersion solSample).1.time = solSample.time ∧
    (Solution.from_json jsonBadVersion solSample).1.workspace_required =
      solSample.workspace_required ∧
    (Solution.from_json jsonBadVersion solSample).1.solver = solSample.solver ∧
    (Solution.from_json jsonBadVersion solSample).1.problem = solSample.problem ∧
    (Solution.from_json jsonBadVersion solSample).1.perf_cfg =
      solSample.perf_cfg :=
  from_json_header_failure_atomic jsonBadVersion solSample
    ⟨currentValidationNumber, currentSerializationVersion + 1⟩ rfl
    (Or.inr ⟨rfl, by decide⟩)


theorem numericsInputEvents_mem (b : Bool) (p : Problem) (x w y : RunInput) :
    ∀ e ∈ Solution.numericsInputEvents b p x w y,
      ∃ d buf, e = Event.checkNumericsInput d buf := by
  intro e he
  unfold Solution.numericsInputEvents at he
  split at he
  · simp only [List.mem_append] at he
    rcases he with (he | he) | he <;> (split at he <;> simp_all)
  · simp at he

theorem numericsOutputEvents_mem (b : Bool) (p : Problem) (x w y : RunInput) :
    ∀ e ∈ Solution.numericsOutputEvents b p x w y,
      ∃ d buf, e = Event.checkNumericsOutput d buf := by
  intro e he
  unfold Solution.numericsOutputEvents at he
  split at he
  · simp only [List.mem_append] at he
    rcases he with (he | he) | he <;> (split at he <;> simp_all)
  · simp at he

theorem buildConvInvokeParams_forward (p_ : Problem) (x w y : RunInput)
    (ws wss : Nat) (hd : p_.GetDirection = .forward) :
    Solution.buildConvInvokeParams p_ x w y ws wss =
      .ok (.convData ⟨x.derefDesc, x.buffer, w.derefDesc, w.buffer,
        y.derefDesc, y.buffer⟩ ws wss p_.GetConv.gfx90aFp16alt.fwd) := by
  unfold Solution.buildConvInvokeParams
  rw [hd]

theorem buildConvInvokeParams_backward (p_ : Problem) (x w y : RunInput)
    (ws wss : Nat) (hd : p_.GetDirection = .backward) :
    Solution.buildConvInvokeParams p_ x w y ws wss =
      .ok (.convData ⟨y.derefDesc, y.buffer, w.derefDesc, w.buffer,
        x.derefDesc, x.buffer⟩ ws wss p_.GetConv.gfx90aFp16alt.bwd) := by
  unfold Solution.buildConvInvokeParams
  rw [hd]

theorem buildConvInvokeParams_wrw (p_ : Problem) (x w y : RunInput)
    (ws wss : Nat) (hd : p_.GetDirection = .backwardWeights) :
    Solution.buildConvInvokeParams p_ x w y ws wss =
      .ok (.convWrW ⟨y.derefDesc, y.buffer, x.derefDesc, x.buffer,
        w.derefDesc, w.buffer⟩ ws wss p_.GetConv.gfx90aFp16alt.wrw) := by
  unfold Solution.buildConvInvokeParams
  rw [hd]

theorem runResolvedConv_invoke_params (ext : Externals) (sol : Solution)
    (handle : Handle) (ws wss : Nat) (p_ : Problem) (x w y : RunInput)
    (evs : List Event) (h2 : Handle) (ictx : AnyInvokeParams)
    (hb : Solution.buildConvInvokeParams p_ x w y ws wss = .ok ictx)
    (h : Solution.runResolvedConv ext sol handle ws wss p_ x w y =
      (evs, .ok h2)) :
    (∃ inv, Event.invoke inv ictx ∈ evs) ∧
      (∀ inv params, Event.invoke inv params ∈ evs → params = ictx) := by
  unfold Solution.runResolvedConv at h
  split at h
  · simp_all
  · split at h
    · simp_all
    · split at h
      · simp_all
      · rename_i ictx2 heq2
        have hic : ictx2 = ictx := by rw [heq2] at hb; injection hb
        subst hic
        split at h
        · rename_i inv1 hinv
          simp only [Prod.mk.injEq] at h
          obtain ⟨hevs, -⟩ := h
          subst hevs
          constructor
          · exact ⟨inv1, by simp⟩
          · intro inv params hmem
            simp only [List.mem_append] at hmem
            rcases hmem with (hmem | hmem) | hmem
            · obtain ⟨d, buf, hcontra⟩ :=
                numericsInputEvents_mem _ _ _ _ _ _ hmem
              cases hcontra
            · simp at hmem
              exact hmem.2
            · obtain ⟨d, buf, hcontra⟩ :=
                numericsOutputEvents_mem _ _ _ _ _ _ hmem
              cases hcontra
        · rename_i hinv
          simp only [Prod.mk.injEq] at h
          obtain ⟨hevs, -⟩ := h
          subst hevs
          constructor
          · refine ⟨ext.prepareInvoker (ext.findSolution sol.GetSolver p_
              ictx2 (sol.perf_cfg.getD "")), ?_⟩
            simp
          · intro inv params hmem
            simp only [List.mem_append] at hmem
            rcases hmem with (hmem | hmem) | hmem
            · obtain ⟨d, buf, hcontra⟩ :=
                numericsInputEvents_mem _ _ _ _ _ _ hmem
              cases hcontra
            · simp at hmem
              rcases hmem with h1 | h1 | h1 | h1 | h1 | h1
              all_goals simp_all
            · obtain ⟨d, buf, hcontra⟩ :=
                numericsOutputEvents_mem _ _ _ _ _ _ hmem
              cases hcontra



/-- C4: Invocation-parameter construction — for a resolved (post-transpose)
single-operator convolution problem and resolved X/W/Y inputs, a successful
`Run` invokes with exactly the direction-specific parameters: Forward uses
(X in, W in, Y out) with the workspace and the descriptor's forward
fp16-alternate flag; Backward uses (Y in, W in, X out) with the backward
flag; BackwardWeights uses (Y in, X in, W out) with the backward-weights
flag — and every invocation in the trace carries those exact parameters. -/
theorem run_invocation_params (ext : Externals) (sol : Solution)
    (handle : Handle) (inputs : InputMap) (workspace workspace_size : Nat)
    (pc : Problem) (cd : ConvolutionDescriptor) (p_ : Problem)
    (x w y : RunInput) (evs : List Event) (h2 : Handle)
    (hitem : sol.problem.item = .single pc)
    (hop : pc.operator_descriptor = .conv cd)
    (hws : ¬ workspace_size < sol.workspace_required)
    (hres : Solution.resolveConvInputs pc cd inputs = .ok (p_, x, w, y))
    (hrun : Solution.Run ext sol handle inputs workspace workspace_size =
      (evs, .ok h2)) :
    (p_.GetDirection = .forward →
       (∃ inv, Event.invoke inv (.convData ⟨x.derefDesc, x.buffer, w.derefDesc,
          w.buffer, y.derefDesc, y.buffer⟩ workspace workspace_size
          p_.GetConv.gfx90aFp16alt.fwd) ∈ evs) ∧
       (∀ inv params, Event.invoke inv params ∈ evs →
          params = .convData ⟨x.derefDesc, x.buffer, w.derefDesc, w.buffer,
            y.derefDesc, y.buffer⟩ workspace workspace_size
            p_.GetConv.gfx90aFp16alt.fwd)) ∧
    (p_.GetDirection = .backward →
       (∃ inv, Event.invoke inv (.convData ⟨y.derefDesc, y.buffer, w.derefDesc,
          w.buffer, x.derefDesc, x.buffer⟩ workspace workspace_size
          p_.GetConv.gfx90aFp16alt.bwd) ∈ evs) ∧
       (∀ inv params, Event.invoke inv params ∈ evs →
          params = .convData ⟨y.derefDesc, y.buffer, w.derefDesc, w.buffer,
            x.derefDesc, x.buffer⟩ workspace workspace_size
            p_.GetConv.gfx90aFp16alt.bwd)) ∧
    (p_.GetDirection = .backwardWeights →
       (∃ inv, Event.invoke inv (.convWrW ⟨y.derefDesc, y.buffer, x.derefDesc,
          x.buffer, w.derefDesc, w.buffer⟩ workspace workspace_size
          p_.GetConv.gfx90aFp16alt.wrw) ∈ evs) ∧
       (∀ inv params, Event.invoke inv params ∈ evs →
          params = .convWrW ⟨y.derefDesc, y.buffer, x.derefDesc, x.buffer,
            w.derefDesc, w.buffer⟩ workspace workspace_size
            p_.GetConv.gfx90aFp16alt.wrw)) := by
  have hred := run_reduces_conv ext sol handle inputs workspace workspace_size
    pc cd hitem hop hws
  have himpl : Solution.RunImplConv ext sol handle inputs workspace
      workspace_size cd pc = Solution.runResolvedConv ext sol handle workspace
      workspace_size p_ x w y := by
    unfold Solution.RunImplConv
    rw [hres]
  have hrr : Solution.runResolvedConv ext sol handle workspace workspace_size
      p_ x w y = (evs, .ok h2) := by
    rw [← himpl, ← hred]
    exact hrun
  refine ⟨fun hd => ?_, fun hd => ?_, fun hd => ?_⟩
  · exact runResolvedConv_invoke_params ext sol handle workspace workspace_size
      p_ x w y evs h2 _
      (buildConvInvokeParams_forward p_ x w y workspace workspace_size hd) hrr
  · exact runResolvedConv_invoke_params ext sol handle workspace workspace_size
      p_ x w y evs h2 _
      (buildConvInvokeParams_backward p_ x w y workspace workspace_size hd) hrr
  · exact runResolvedConv_invoke_params ext sol handle workspace workspace_size
      p_ x w y evs h2 _
      (buildConvInvokeParams_wrw p_ x w y workspace workspace_size hd) hrr

/-- C4 witness: the sample forward run invokes with (X, W, Y), workspace 0,
flag false. -/
theorem run_invocation_params_witness :
    ∃ inv, Event.invoke inv (.convData ⟨descSampleX, 10, descSampleW, 11,
      descSampleY, 12⟩ 0 0 false) ∈
      [Event.setupFloats, Event.getDb,
       Event.findSolutionCall "ConvDirectNaiveFwd" "",
       Event.prepareInvokerCall,
       Event.registerInvokerCall "netcfg" "ConvDirectNaiveFwd",
       Event.invoke ⟨7⟩ (.convData ⟨descSampleX, 10, descSampleW, 11,
         descSampleY, 12⟩ 0 0 false)] :=
  ((run_invocation_params extSample solSample handleEmpty inputsSample 0 0
      probSample ⟨.convolution, ⟨false, false, false⟩⟩ probSample
      ⟨some descSampleX, 10⟩ ⟨some descSampleW, 11⟩ ⟨some descSampleY, 12⟩
      [Event.setupFloats, Event.getDb,
       Event.findSolutionCall "ConvDirectNaiveFwd" "",
       Event.prepareInvokerCall,
       Event.registerInvokerCall "netcfg" "ConvDirectNaiveFwd",
       Event.invoke ⟨7⟩ (.convData ⟨descSampleX, 10, descSampleW, 11,
         descSampleY, 12⟩ 0 0 false)]
      ⟨[(("netcfg", "ConvDirectNaiveFwd"), ⟨7⟩)]⟩
      rfl rfl (by decide) rfl rfl).1 rfl).1



theorem transpose_operator (pc : Problem) (x w y : RunInput) :
    (Solution.Transpose pc x w y).1.operator_descriptor =
      pc.MakeTransposed.operator_descriptor := by
  obtain ⟨xd, xb⟩ := x
  obtain ⟨wd, wb⟩ := w
  obtain ⟨yd, yb⟩ := y
  unfold Solution.Transpose
  cases yd <;> cases wd <;> cases xd <;> rfl

theorem get_input_checked_found_some (pc : Problem) (inputs : InputMap)
    (id : TensorArgumentId) (name_str : String) (r : RunInput)
    (hfind : inputs.find id = some r) (hsome : r.descriptor.isSome) :
    Solution.get_input_checked pc inputs id name_str = .ok r := by
  unfold Solution.get_input_checked
  rw [hfind]
  simp [hsome]

theorem runResolvedConv_solver_congr (ext : Externals) (handle : Handle)
    (ws wss : Nat) (p_ : Problem) (x w y : RunInput) (sol sol' : Solution)
    (hs : sol.solver = sol'.solver) (hp : sol.perf_cfg = sol'.perf_cfg) :
    Solution.runResolvedConv ext sol handle ws wss p_ x w y =
      Solution.runResolvedConv ext sol' handle ws wss p_ x w y := by
  unfold Solution.runResolvedConv Solution.GetSolver
  rw [hs, hp]



/-- C3: Transpose correctness — `Solution::Transpose` swaps the X and Y
RunInput bindings by value (new x = old y, new y = old x), the transposed
problem is in non-transpose mode, a non-transpose problem undergoes no swap
or rewrite, and running the transpose-mode problem with resolved inputs
(x=A, y=B) is observably equivalent (same trace, same result) to running
the structurally transposed problem in its non-transpose form with inputs
(x=B, y=A) — the rewrite therefore happens before the backward shape check
and numeric validation, which the equivalent run performs on the swapped
values. -/
theorem run_transpose_equivalence (ext : Externals) (sol : Solution)
    (handle : Handle) (inputs : InputMap) (workspace workspace_size : Nat)
    (pc : Problem) (cd : ConvolutionDescriptor) (A C B : RunInput)
    (hitem : sol.problem.item = .single pc)
    (hop : pc.operator_descriptor = .conv cd)
    (hmode : cd.mode = .transpose)
    (hws : ¬ workspace_size < sol.workspace_required)
    (hx : Solution.get_input_checked pc inputs .convolutionX
      "miopenTensorConvolutionX" = .ok A)
    (hw : Solution.get_input_checked pc inputs .convolutionW
      "miopenTensorConvolutionW" = .ok C)
    (hy : Solution.get_input_checked pc inputs .convolutionY
      "miopenTensorConvolutionY" = .ok B) :
    (Solution.Transpose pc A C B).2.1 = B ∧
    (Solution.Transpose pc A C B).2.2 = A ∧
    (Solution.Transpose pc A C B).1.GetConv.mode = .convolution ∧
    (∀ cd2 : ConvolutionDescriptor, cd2.mode ≠ .transpose →
       Solution.resolveConvInputs pc cd2 inputs = .ok (pc, A, C, B)) ∧
    Solution.Run ext sol handle inputs workspace workspace_size =
      Solution.Run ext
        { sol with problem := ⟨.single (Solution.Transpose pc A C B).1⟩ }
        handle
        [(.convolutionX, B), (.convolutionW, C), (.convolutionY, A)]
        workspace workspace_size := by
  have hopT : (Solution.Transpose pc A C B).1.operator_descriptor =
      .conv { cd with mode := ConvolutionMode.convolution } := by
    rw [transpose_operator pc A C B]
    unfold Problem.MakeTransposed
    simp only [hop]
  refine ⟨rfl, rfl, ?_, ?_, ?_⟩
  · unfold Problem.GetConv
    rw [hopT]
  · intro cd2 hmode2
    unfold Solution.resolveConvInputs
    simp only [hx, hw, hy]
    rw [if_neg hmode2]
  · have hredL := run_reduces_conv ext sol handle inputs workspace
      workspace_size pc cd hitem hop hws
    have hresL : Solution.resolveConvInputs pc cd inputs =
        .ok ((Solution.Transpose pc A C B).1, B, C, A) := by
      unfold Solution.resolveConvInputs
      simp only [hx, hw, hy]
      rw [if_pos hmode]
      rfl
    have himplL : Solution.RunImplConv ext sol handle inputs workspace
        workspace_size cd pc =
        Solution.runResolvedConv ext sol handle workspace workspace_size
          (Solution.Transpose pc A C B).1 B C A := by
      unfold Solution.RunImplConv
      rw [hresL]
    have hredR := run_reduces_conv ext
      { sol with problem := ⟨.single (Solution.Transpose pc A C B).1⟩ }
      handle [(.convolutionX, B), (.convolutionW, C), (.convolutionY, A)]
      workspace workspace_size (Solution.Transpose pc A C B).1
      { cd with mode := ConvolutionMode.convolution } rfl hopT hws
    have hBsome : B.descriptor.isSome := get_input_checked_ok_isSome _ _ _ _ _ hy
    have hCsome : C.descriptor.isSome := get_input_checked_ok_isSome _ _ _ _ _ hw
    have hAsome : A.descriptor.isSome := get_input_checked_ok_isSome _ _ _ _ _ hx
    have gB : Solution.get_input_checked (Solution.Transpose pc A C B).1
        [(.convolutionX, B), (.convolutionW, C), (.convolutionY, A)]
        .convolutionX "miopenTensorConvolutionX" = .ok B :=
      get_input_checked_found_some _ _ _ _ B rfl hBsome
    have gC : Solution.get_input_checked (Solution.Transpose pc A C B).1
        [(.convolutionX, B), (.convolutionW, C), (.convolutionY, A)]
        .convolutionW "miopenTensorConvolutionW" = .ok C :=
      get_input_checked_found_some _ _ _ _ C rfl hCsome
    have gA : Solution.get_input_checked (Solution.Transpose pc A C B).1
        [(.convolutionX, B), (.convolutionW, C), (.convolutionY, A)]
        .convolutionY "miopenTensorConvolutionY" = .ok A :=
      get_input_checked_found_some _ _ _ _ A rfl hAsome
    have hresR : Solution.resolveConvInputs (Solution.Transpose pc A C B).1
        { cd with mode := ConvolutionMode.convolution }
        [(.convolutionX, B), (.convolutionW, C), (.convolutionY, A)] =
        .ok ((Solution.Transpose pc A C B).1, B, C, A) := by
      unfold Solution.resolveConvInputs
      simp only [gB, gC, gA]
      split
      · rename_i hc
        exact nomatch hc
      · rfl
    have himplR : Solution.RunImplConv ext
        { sol with problem := ⟨.single (Solution.Transpose pc A C B).1⟩ }
        handle [(.convolutionX, B), (.convolutionW, C), (.convolutionY, A)]
        workspace workspace_size { cd with mode := ConvolutionMode.convolution }
        (Solution.Transpose pc A C B).1 =
        Solution.runResolvedConv ext
          { sol with problem := ⟨.single (Solution.Transpose pc A C B).1⟩ }
          handle workspace workspace_size
          (Solution.Transpose pc A C B).1 B C A := by
      unfold Solution.RunImplConv
      rw [hresR]
    rw [hredL, himplL, hredR, himplR]
    exact runResolvedConv_solver_congr ext handle workspace workspace_size
      (Solution.Transpose pc A C B).1 B C A sol
      { sol with problem := ⟨.single (Solution.Transpose pc A C B).1⟩ } rfl rfl




/-- C3 witness: the sample transpose-mode run equals the swapped-input run
of the transposed problem. -/
theorem run_transpose_equivalence_witness :
    Solution.Run extSample solSampleT handleEmpty inputsSample 0 0 =
      Solution.Run extSample
        { solSampleT with problem := ⟨.single (Solution.Transpose probSampleT
            ⟨some descSampleX, 10⟩ ⟨some descSampleW, 11⟩
            ⟨some descSampleY, 12⟩).1⟩ }
        handleEmpty
        [(.convolutionX, ⟨some descSampleY, 12⟩),
         (.convolutionW, ⟨some descSampleW, 11⟩),
         (.convolutionY, ⟨some descSampleX, 10⟩)] 0 0 :=
  (run_transpose_equivalence extSample solSampleT handleEmpty inputsSample 0 0
    probSampleT ⟨.transpose, ⟨false, false, false⟩⟩
    ⟨some descSampleX, 10⟩ ⟨some descSampleW, 11⟩ ⟨some descSampleY, 12⟩
    rfl rfl rfl (by decide) rfl rfl rfl).2.2.2.2



theorem getInvoker_empty (h : Handle) (nc s : String)
    (he : h.invokers = []) : h.GetInvoker nc s = none := by
  unfold Handle.GetInvoker
  rw [he]
  rfl

theorem getInvoker_register_same (h : Handle) (inv : Invoker)
    (nc s : String) :
    (h.RegisterInvoker inv nc s).GetInvoker nc s = some inv := by
  unfold Handle.RegisterInvoker Handle.GetInvoker alistFind
  simp

theorem numericsEvents_fallback_free (b : Bool) (p : Problem)
    (x w y : RunInput) :
    (Solution.numericsInputEvents b p x w y).filter Event.isFindSolution = [] ∧
    (Solution.numericsInputEvents b p x w y).filter Event.isPrepareInvoker = [] ∧
    (Solution.numericsInputEvents b p x w y).filter Event.isRegisterInvoker = [] ∧
    (Solution.numericsOutputEvents b p x w y).filter Event.isFindSolution = [] ∧
    (Solution.numericsOutputEvents b p x w y).filter Event.isPrepareInvoker = [] ∧
    (Solution.numericsOutputEvents b p x w y).filter Event.isRegisterInvoker = [] := by
  refine ⟨?_, ?_, ?_, ?_, ?_, ?_⟩ <;> rw [List.filter_eq_nil_iff] <;> intro a ha <;>
    first
      | (obtain ⟨d, buf, rfl⟩ := numericsInputEvents_mem _ _ _ _ _ _ ha
         simp [Event.isFindSolution, Event.isPrepareInvoker,
           Event.isRegisterInvoker])
      | (obtain ⟨d, buf, rfl⟩ := numericsOutputEvents_mem _ _ _ _ _ _ ha
         simp [Event.isFindSolution, Event.isPrepareInvoker,
           Event.isRegisterInvoker])



theorem counts_hit_trace (b : Bool) (p : Problem) (x w y : RunInput)
    (inv : Invoker) (ictx : AnyInvokeParams) :
    countFindSolution (Solution.numericsInputEvents b p x w y ++
      [Event.invoke inv ictx] ++
      Solution.numericsOutputEvents b p x w y) = 0 ∧
    countPrepareInvoker (Solution.numericsInputEvents b p x w y ++
      [Event.invoke inv ictx] ++
      Solution.numericsOutputEvents b p x w y) = 0 ∧
    countRegisterInvoker (Solution.numericsInputEvents b p x w y ++
      [Event.invoke inv ictx] ++
      Solution.numericsOutputEvents b p x w y) = 0 := by
  obtain ⟨h1, h2, h3, h4, h5, h6⟩ := numericsEvents_fallback_free b p x w y
  refine ⟨?_, ?_, ?_⟩ <;>
    simp [countFindSolution, countPrepareInvoker, countRegisterInvoker,
      List.filter_append, h1, h2, h3, h4, h5, h6, Event.isFindSolution,
      Event.isPrepareInvoker, Event.isRegisterInvoker]

theorem counts_fallback_trace (b : Bool) (p : Problem) (x w y : RunInput)
    (s perf nc : String) (inv : Invoker) (ictx : AnyInvokeParams) :
    countFindSolution (Solution.numericsInputEvents b p x w y ++
      [Event.setupFloats, Event.getDb, Event.findSolutionCall s perf,
       Event.prepareInvokerCall, Event.registerInvokerCall nc s,
       Event.invoke inv ictx] ++
      Solution.numericsOutputEvents b p x w y) = 1 ∧
    countPrepareInvoker (Solution.numericsInputEvents b p x w y ++
      [Event.setupFloats, Event.getDb, Event.findSolutionCall s perf,
       Event.prepareInvokerCall, Event.registerInvokerCall nc s,
       Event.invoke inv ictx] ++
      Solution.numericsOutputEvents b p x w y) = 1 ∧
    countRegisterInvoker (Solution.numericsInputEvents b p x w y ++
      [Event.setupFloats, Event.getDb, Event.findSolutionCall s perf,
       Event.prepareInvokerCall, Event.registerInvokerCall nc s,
       Event.invoke inv ictx] ++
      Solution.numericsOutputEvents b p x w y) = 1 := by
  obtain ⟨h1, h2, h3, h4, h5, h6⟩ := numericsEvents_fallback_free b p x w y
  refine ⟨?_, ?_, ?_⟩ <;>
    simp [countFindSolution, countPrepareInvoker, countRegisterInvoker,
      List.filter_append, h1, h2, h3, h4, h5, h6, Event.isFindSolution,
      Event.isPrepareInvoker, Event.isRegisterInvoker]



/-- C1: Idempotent caching — starting from an empty invoker cache, a
successful single-operator convolution `Run` performs exactly one
`FindSolution`, one `PrepareInvoker` and one `RegisterInvoker`; the lookup
(on the network config of the resolved problem and the solver identity
string) misses, and the built invoker is registered under exactly that
(signature, solver) key; a second `Run` with the same arguments succeeds
with the handle unchanged and performs zero `FindSolution`,
`PrepareInvoker` and `RegisterInvoker` calls — and since the handle is a
fixpoint, so does every subsequent identical call. -/
theorem run_idempotent_caching (ext : Externals) (sol : Solution)
    (handle : Handle) (inputs : InputMap) (workspace workspace_size : Nat)
    (pc : Problem) (cd : ConvolutionDescriptor) (evs1 : List Event)
    (h1 : Handle)
    (hitem : sol.problem.item = .single pc)
    (hop : pc.operator_descriptor = .conv cd)
    (hempty : handle.invokers = [])
    (hrun : Solution.Run ext sol handle inputs workspace workspace_size =
      (evs1, .ok h1)) :
    countFindSolution evs1 = 1 ∧ countPrepareInvoker evs1 = 1 ∧
    countRegisterInvoker evs1 = 1 ∧
    (∃ p_ x w y, Solution.resolveConvInputs pc cd inputs = .ok (p_, x, w, y) ∧
       handle.GetInvoker (ext.makeNetworkConfig p_)
         sol.GetSolver.ToString = none ∧
       ∃ inv, h1 = handle.RegisterInvoker inv (ext.makeNetworkConfig p_)
           sol.GetSolver.ToString ∧
         h1.GetInvoker (ext.makeNetworkConfig p_)
           sol.GetSolver.ToString = some inv) ∧
    (∃ evs2, Solution.Run ext sol h1 inputs workspace workspace_size =
        (evs2, .ok h1) ∧
       countFindSolution evs2 = 0 ∧ countPrepareInvoker evs2 = 0 ∧
       countRegisterInvoker evs2 = 0) := by
  have hws : ¬ workspace_size < sol.workspace_required := by
    intro hlt
    unfold Solution.Run at hrun
    rw [if_pos hlt] at hrun
    simp at hrun
  have hred := run_reduces_conv ext sol handle inputs workspace workspace_size
    pc cd hitem hop hws
  rw [hred] at hrun
  unfold Solution.RunImplConv at hrun
  split at hrun
  · simp_all
  · rename_i p9 x9 w9 y9 heqres
    unfold Solution.runResolvedConv at hrun
    split at hrun
    · simp_all
    · rename_i hshape
      split at hrun
      · simp_all
      · rename_i u9 hgc
        split at hrun
        · simp_all
        · rename_i ictx9 hbuild
          have hget : handle.GetInvoker (ext.makeNetworkConfig p9)
              sol.GetSolver.ToString = none :=
            getInvoker_empty handle _ _ hempty
          split at hrun
          · rename_i inv9 hinv
            rw [hget] at hinv
            cases hinv
          · simp only [Prod.mk.injEq, Except.ok.injEq] at hrun
            obtain ⟨hevs1, hh1⟩ := hrun
            subst hevs1
            subst hh1
            obtain ⟨c1, c2, c3⟩ := counts_fallback_trace
              ext.checkNumericsEnabled p9 x9 w9 y9 sol.GetSolver.ToString
              (sol.perf_cfg.getD "") (ext.makeNetworkConfig p9)
              (ext.prepareInvoker (ext.findSolution sol.GetSolver p9 ictx9
                (sol.perf_cfg.getD ""))) ictx9
            refine ⟨c1, c2, c3, ⟨p9, x9, w9, y9, heqres, hget,
              ⟨ext.prepareInvoker (ext.findSolution sol.GetSolver p9 ictx9
                 (sol.perf_cfg.getD "")), rfl,
               getInvoker_register_same handle _ _ _⟩⟩, ?_⟩
            have hget2 : (handle.RegisterInvoker
                (ext.prepareInvoker (ext.findSolution sol.GetSolver p9 ictx9
                  (sol.perf_cfg.getD ""))) (ext.makeNetworkConfig p9)
                sol.GetSolver.ToString).GetInvoker (ext.makeNetworkConfig p9)
                sol.GetSolver.ToString =
                some (ext.prepareInvoker (ext.findSolution sol.GetSolver p9
                  ictx9 (sol.perf_cfg.getD ""))) :=
              getInvoker_register_same handle _ _ _
            have hrun2 : Solution.Run ext sol
                (handle.RegisterInvoker (ext.prepareInvoker
                  (ext.findSolution sol.GetSolver p9 ictx9
                    (sol.perf_cfg.getD ""))) (ext.makeNetworkConfig p9)
                  sol.GetSolver.ToString) inputs workspace workspace_size =
                (Solution.numericsInputEvents ext.checkNumericsEnabled p9
                   x9 w9 y9 ++
                 [Event.invoke (ext.prepareInvoker (ext.findSolution
                    sol.GetSolver p9 ictx9 (sol.perf_cfg.getD ""))) ictx9] ++
                 Solution.numericsOutputEvents ext.checkNumericsEnabled p9
                   x9 w9 y9,
                 .ok (handle.RegisterInvoker (ext.prepareInvoker
                   (ext.findSolution sol.GetSolver p9 ictx9
                     (sol.perf_cfg.getD ""))) (ext.makeNetworkConfig p9)
                   sol.GetSolver.ToString)) := by
              rw [run_reduces_conv ext sol _ inputs workspace workspace_size
                pc cd hitem hop hws]
              unfold Solution.RunImplConv
              simp only [heqres]
              unfold Solution.runResolvedConv
              rw [if_neg hshape]
              simp only [hgc, hbuild, hget2]
            exact ⟨_, hrun2,
              (counts_hit_trace ext.checkNumericsEnabled p9 x9 w9 y9 _ _).1,
              (counts_hit_trace ext.checkNumericsEnabled p9 x9 w9 y9 _ _).2.1,
              (counts_hit_trace ext.checkNumericsEnabled p9 x9 w9 y9 _ _).2.2⟩



/-- C1 witness: the sample run's first trace has one fallback triple, and
the second run from the resulting handle has none. -/
theorem run_idempotent_caching_witness :
    countFindSolution
      [Event.setupFloats, Event.getDb,
       Event.findSolutionCall "ConvDirectNaiveFwd" "",
       Event.prepareInvokerCall,
       Event.registerInvokerCall "netcfg" "ConvDirectNaiveFwd",
       Event.invoke ⟨7⟩ (.convData ⟨descSampleX, 10, descSampleW, 11,
         descSampleY, 12⟩ 0 0 false)] = 1 ∧
    (∃ evs2, Solution.Run extSample solSample
        ⟨[(("netcfg", "ConvDirectNaiveFwd"), ⟨7⟩)]⟩ inputsSample 0 0 =
        (evs2, .ok ⟨[(("netcfg", "ConvDirectNaiveFwd"), ⟨7⟩)]⟩) ∧
       countFindSolution evs2 = 0 ∧ countPrepareInvoker evs2 = 0 ∧
       countRegisterInvoker evs2 = 0) :=
  ⟨(run_idempotent_caching extSample solSample handleEmpty inputsSample 0 0
      probSample ⟨.convolution, ⟨false, false, false⟩⟩
      [Event.setupFloats, Event.getDb,
       Event.findSolutionCall "ConvDirectNaiveFwd" "",
       Event.prepareInvokerCall,
       Event.registerInvokerCall "netcfg" "ConvDirectNaiveFwd",
       Event.invoke ⟨7⟩ (.convData ⟨descSampleX, 10, descSampleW, 11,
         descSampleY, 12⟩ 0 0 false)]
      ⟨[(("netcfg", "ConvDirectNaiveFwd"), ⟨7⟩)]⟩ rfl rfl rfl rfl).1,
   (run_idempotent_caching extSample solSample handleEmpty inputsSample 0 0
      probSample ⟨.convolution, ⟨false, false, false⟩⟩
      [Event.setupFloats, Event.getDb,
       Event.findSolutionCall "ConvDirectNaiveFwd" "",
       Event.prepareInvokerCall,
       Event.registerInvokerCall "netcfg" "ConvDirectNaiveFwd",
       Event.invoke ⟨7⟩ (.convData ⟨descSampleX, 10, descSampleW, 11,
         descSampleY, 12⟩ 0 0 false)]
      ⟨[(("netcfg", "ConvDirectNaiveFwd"), ⟨7⟩)]⟩ rfl rfl rfl rfl).2.2.2.2⟩



theorem countInvoke_numericsInput (b : Bool) (p : Problem) (x w y : RunInput) :
    countInvoke (Solution.numericsInputEvents b p x w y) = 0 := by
  rw [countInvoke, List.length_eq_zero, List.filter_eq_nil_iff]
  intro a ha
  obtain ⟨d, buf, rfl⟩ := numericsInputEvents_mem _ _ _ _ _ _ ha
  simp [Event.isInvoke]

theorem runResolvedConv_error_trace (ext : Externals) (sol : Solution)
    (handle : Handle) (ws wss : Nat) (p_ : Problem) (x w y : RunInput)
    (evs : List Event) (e : RunError)
    (h : Solution.runResolvedConv ext sol handle ws wss p_ x w y =
      (evs, .error e)) :
    countInvoke evs = 0 := by
  unfold Solution.runResolvedConv at h
  split at h
  · simp only [Prod.mk.injEq] at h
    obtain ⟨hevs, -⟩ := h
    subst hevs
    simp [countInvoke]
  · split at h
    · simp only [Prod.mk.injEq] at h
      obtain ⟨hevs, -⟩ := h
      subst hevs
      exact countInvoke_numericsInput _ _ _ _ _
    · split at h
      · simp only [Prod.mk.injEq] at h
        obtain ⟨hevs, -⟩ := h
        subst hevs
        exact countInvoke_numericsInput _ _ _ _ _
      · split at h <;> simp_all

theorem run_error_no_invoke (ext : Externals) (sol : Solution)
    (handle : Handle) (inputs : InputMap) (ws wss : Nat) (evs : List Event)
    (e : RunError)
    (h : Solution.Run ext sol handle inputs ws wss = (evs, .error e)) :
    countInvoke evs = 0 := by
  unfold Solution.Run at h
  split at h
  · simp only [Prod.mk.injEq] at h
    obtain ⟨hevs, -⟩ := h
    subst hevs
    simp [countInvoke]
  · split at h
    · split at h
      · unfold Solution.RunImplConv at h
        split at h
        · simp only [Prod.mk.injEq] at h
          obtain ⟨hevs, -⟩ := h
          subst hevs
          simp [countInvoke]
        · exact runResolvedConv_error_trace _ _ _ _ _ _ _ _ _ _ _ h
      · simp only [Prod.mk.injEq] at h
        obtain ⟨hevs, -⟩ := h
        subst hevs
        simp [countInvoke]
      · simp only [Prod.mk.injEq] at h
        obtain ⟨hevs, -⟩ := h
        subst hevs
        simp [countInvoke]
    · unfold Solution.RunImplFused at h
      split at h
      · simp only [Prod.mk.injEq] at h
        obtain ⟨hevs, -⟩ := h
        subst hevs
        simp [countInvoke]
      · split at h <;> simp_all



theorem buildConvInvokeParams_other (p_ : Problem) (x w y : RunInput)
    (ws wss : Nat) (hd : p_.GetDirection = .other) :
    Solution.buildConvInvokeParams p_ x w y ws wss =
      .error .unsupportedDirection := by
  unfold Solution.buildConvInvokeParams
  rw [hd]

theorem direction_other_of_ne (d : Direction) (h1 : d ≠ .forward)
    (h2 : d ≠ .backward) (h3 : d ≠ .backwardWeights) : d = .other := by
  cases d <;> simp_all

theorem runResolvedConv_unsupported_sound (ext : Externals) (sol : Solution)
    (handle : Handle) (ws wss : Nat) (p_ : Problem) (x w y : RunInput)
    (h : (Solution.runResolvedConv ext sol handle ws wss p_ x w y).2 =
      .error .unsupportedDirection) :
    ¬(p_.GetDirection = .backward ∧
        y.derefDesc.lengths.getD 1 0 ≠ w.derefDesc.lengths.getD 0 0) ∧
      (∃ u, ext.validateGroupCount x.derefDesc w.derefDesc p_.GetConv =
        .ok u) ∧
      p_.GetDirection = .other := by
  unfold Solution.runResolvedConv at h
  split at h
  · simp_all
  · rename_i hshape
    split at h
    · simp_all
    · rename_i u9 hgc
      split at h
      · rename_i e9 hbuild
        simp only at h
        injection h with h
        subst h
        exact ⟨hshape, ⟨u9, hgc⟩,
          (buildConvInvokeParams_error _ _ _ _ _ _ _ hbuild).2⟩
      · split at h <;> simp_all

theorem runResolvedConv_unsupported_complete (ext : Externals)
    (sol : Solution) (handle : Handle) (ws wss : Nat) (p_ : Problem)
    (x w y : RunInput) (u : Unit)
    (hshape : ¬(p_.GetDirection = .backward ∧
        y.derefDesc.lengths.getD 1 0 ≠ w.derefDesc.lengths.getD 0 0))
    (hgc : ext.validateGroupCount x.derefDesc w.derefDesc p_.GetConv = .ok u)
    (hd : p_.GetDirection = .other) :
    Solution.runResolvedConv ext sol handle ws wss p_ x w y =
      (Solution.numericsInputEvents ext.checkNumericsEnabled p_ x w y,
       .error .unsupportedDirection) := by
  unfold Solution.runResolvedConv
  rw [if_neg hshape]
  simp only [hgc, buildConvInvokeParams_other p_ x w y ws wss hd]

theorem makeInvokeParams_error_iff (fp : FusedProblem)
    (getter : TensorArgumentId → TensorDescriptor → Except RunError Nat)
    (e : RunError) :
    fp.MakeInvokeParams getter = .error e ↔
      FusedProblem.bindArgs getter fp.args = .error e := by
  unfold FusedProblem.MakeInvokeParams
  constructor
  · intro h
    split at h <;> simp_all
  · intro h
    simp only [h]



/-- C9: Unsupported failures — `Run` fails with a NotImplemented-status
error exactly when, with the workspace check passing, (a) the
single-operator problem's kind is Activation or Bias, or (b) the resolved
direction of a single-operator convolution (with resolution, shape check
and group validation passing) is none of Forward, Backward,
BackwardWeights, or (c) a fused problem's argument walk hits a caller
descriptor differing from the one fixed at construction; and every failing
run performs no device invocation. -/
theorem run_unsupported_iff (ext : Externals) (sol : Solution)
    (handle : Handle) (inputs : InputMap) (workspace workspace_size : Nat) :
    ((∃ e, (Solution.Run ext sol handle inputs workspace workspace_size).2 =
        .error e ∧ e.status = .notImplemented) ↔
      (¬ workspace_size < sol.workspace_required ∧
       ((∃ p, sol.problem.item = .single p ∧
           ((∃ d, p.operator_descriptor = .activation d) ∨
            (∃ d, p.operator_descriptor = .bias d))) ∨
        (∃ p cd p_ x w y u, sol.problem.item = .single p ∧
           p.operator_descriptor = .conv cd ∧
           Solution.resolveConvInputs p cd inputs = .ok (p_, x, w, y) ∧
           ¬(p_.GetDirection = .backward ∧
              y.derefDesc.lengths.getD 1 0 ≠ w.derefDesc.lengths.getD 0 0) ∧
           ext.validateGroupCount x.derefDesc w.derefDesc p_.GetConv = .ok u ∧
           p_.GetDirection ≠ .forward ∧ p_.GetDirection ≠ .backward ∧
           p_.GetDirection ≠ .backwardWeights) ∨
        (∃ fp, sol.problem.item = .fused fp ∧
           FusedProblem.bindArgs (Solution.buffer_getter inputs) fp.args =
             .error .fusedRebind)))) ∧
    (∀ evs e, Solution.Run ext sol handle inputs workspace workspace_size =
        (evs, .error e) → countInvoke evs = 0) := by
  constructor
  · constructor
    · rintro ⟨e, hres, hstat⟩
      have hws : ¬ workspace_size < sol.workspace_required := by
        intro hlt
        unfold Solution.Run at hres
        rw [if_pos hlt] at hres
        simp only at hres
        injection hres with hres
        subst hres
        simp [RunError.status] at hstat
      refine ⟨hws, ?_⟩
      unfold Solution.Run at hres
      rw [if_neg hws] at hres
      split at hres
      · rename_i x0 p hitem
        split at hres
        · rename_i x1 cd hop
          rcases runImplConv_error_classes _ _ _ _ _ _ _ _ _ hres with
            ⟨n, he⟩ | he | ⟨m, he⟩ | he
          · subst he
            simp [RunError.status] at hstat
          · subst he
            simp [RunError.status] at hstat
          · subst he
            simp [RunError.status] at hstat
          · subst he
            unfold Solution.RunImplConv at hres
            split at hres
            · rename_i e9 heq
              obtain ⟨n, hn⟩ := resolveConvInputs_error _ _ _ _ heq
              simp only at hres
              injection hres with hres
              rw [hres] at hn
              simp at hn
            · rename_i p9 x9 w9 y9 heqres
              obtain ⟨hshape, ⟨u9, hgc⟩, hd⟩ :=
                runResolvedConv_unsupported_sound _ _ _ _ _ _ _ _ _ hres
              exact Or.inr (Or.inl ⟨p, cd, p9, x9, w9, y9, u9, hitem, hop,
                heqres, hshape, hgc, by simp [hd], by simp [hd], by simp [hd]⟩)
        · rename_i d hop
          simp only at hres
          injection hres with hres
          subst hres
          exact Or.inl ⟨p, hitem, Or.inl ⟨d, hop⟩⟩
        · rename_i d hop
          simp only at hres
          injection hres with hres
          subst hres
          exact Or.inl ⟨p, hitem, Or.inr ⟨d, hop⟩⟩
      · rename_i x0 fp hitem
        rcases runImplFused_error_classes _ _ _ _ _ _ hres with ⟨n, he⟩ | he
        · subst he
          simp [RunError.status] at hstat
        · subst he
          unfold Solution.RunImplFused at hres
          split at hres
          · rename_i e9 heq
            simp only at hres
            injection hres with hres
            subst hres
            exact Or.inr (Or.inr ⟨fp, hitem,
              (makeInvokeParams_error_iff _ _ _).mp heq⟩)
          · split at hres <;> simp_all
    · rintro ⟨hws, hcond⟩
      rcases hcond with ⟨p, hitem, hAB⟩ |
        ⟨p, cd, p_, x, w, y, u, hitem, hop, heqres, hshape, hgc, h1, h2, h3⟩ |
        ⟨fp, hitem, hbind⟩
      · have hrun : Solution.Run ext sol handle inputs workspace
            workspace_size = ([], .error .notExecutable) := by
          unfold Solution.Run
          rw [if_neg hws]
          rcases hAB with ⟨d, hop⟩ | ⟨d, hop⟩ <;> simp only [hitem, hop]
        exact ⟨.notExecutable, by rw [hrun], rfl⟩
      · have hd := direction_other_of_ne _ h1 h2 h3
        have hrun : Solution.Run ext sol handle inputs workspace
            workspace_size =
            (Solution.numericsInputEvents ext.checkNumericsEnabled p_ x w y,
             .error .unsupportedDirection) := by
          rw [run_reduces_conv ext sol handle inputs workspace workspace_size
            p cd hitem hop hws]
          unfold Solution.RunImplConv
          simp only [heqres]
          exact runResolvedConv_unsupported_complete ext sol handle workspace
            workspace_size p_ x w y u hshape hgc hd
        exact ⟨.unsupportedDirection, by rw [hrun], rfl⟩
      · have hmi : fp.MakeInvokeParams (Solution.buffer_getter inputs) =
            .error .fusedRebind := (makeInvokeParams_error_iff _ _ _).mpr hbind
        have hrun : Solution.Run ext sol handle inputs workspace
            workspace_size = ([], .error .fusedRebind) := by
          unfold Solution.Run
          rw [if_neg hws]
          simp only [hitem]
          unfold Solution.RunImplFused
          simp only [hmi]
        exact ⟨.fusedRebind, by rw [hrun], rfl⟩
  · intro evs e h
    exact run_error_no_invoke _ _ _ _ _ _ _ _ h




/-- C9 witness: a standalone activation run fails with a
NotImplemented-status error. -/
theorem run_unsupported_iff_witness :
    ∃ e, (Solution.Run extSample solActSample handleEmpty [] 0 0).2 =
      .error e ∧ e.status = .notImplemented :=
  (run_unsupported_iff extSample solActSample handleEmpty [] 0 0).1.mpr
    ⟨by decide, Or.inl ⟨probActSample, rfl, Or.inl ⟨⟨⟩, rfl⟩⟩⟩


/-- C2: Workspace check — `Run` fails with InsufficientWorkspace exactly
when the provided workspace size is below the Solution's requirement, and
the check runs first: on a too-small workspace the failure carries the
exact solver/required/provided message data and nothing else happens (empty
trace), regardless of all other arguments. -/
theorem run_insufficient_workspace_iff (ext : Externals) (sol : Solution)
    (handle : Handle) (inputs : InputMap) (workspace workspace_size : Nat) :
    (workspace_size < sol.workspace_required →
       Solution.Run ext sol handle inputs workspace workspace_size =
         ([], .error (.insufficientWorkspace sol.GetSolver.ToString
            sol.workspace_required workspace_size))) ∧
    ((∃ s r p, (Solution.Run ext sol handle inputs workspace workspace_size).2 =
        .error (.insufficientWorkspace s r p)) ↔
       workspace_size < sol.workspace_required) := by
  constructor
  · intro hlt
    unfold Solution.Run
    rw [if_pos hlt]
  · constructor
    · rintro ⟨s, r, p, hres⟩
      by_contra hge
      unfold Solution.Run at hres
      rw [if_neg hge] at hres
      split at hres
      · split at hres
        · have hcl := runImplConv_error_classes _ _ _ _ _ _ _ _ _ hres
          rcases hcl with ⟨n, h1⟩ | h1 | ⟨m, h1⟩ | h1 <;> simp_all
        · simp_all
        · simp_all
      · have hcl := runImplFused_error_classes _ _ _ _ _ _ hres
        rcases hcl with ⟨n, h1⟩ | h1 <;> simp_all
    · intro hlt
      exact ⟨sol.GetSolver.ToString, sol.workspace_required, workspace_size,
        by unfold Solution.Run; rw [if_pos hlt]⟩

/-- C2 witness: a solution requiring 4 bytes run with 1 byte fails with the
exact InsufficientWorkspace error. -/
theorem run_insufficient_workspace_iff_witness :
    Solution.Run extSample solSampleWs handleEmpty inputsSample 0 1 =
      ([], .error (.insufficientWorkspace "ConvDirectNaiveFwd" 4 1)) :=
  (run_insufficient_workspace_iff extSample solSampleWs handleEmpty
     inputsSample 0 1).1 (by decide)

/-- C7: Argument resolution — a required tensor-argument id absent from the
caller inputs fails with MissingArgument; a found input without a
descriptor is filled from the Problem's registered descriptor, failing with
MissingArgument if the Problem has none either; the same absent-id failure
applies to a fused-argument id with no bound buffer; and whenever `Run`
fails with either missing-argument error, the trace contains no device
invocation. -/
theorem run_missing_argument (ext : Externals) (sol : Solution)
    (handle : Handle) (inputs : InputMap) (workspace workspace_size : Nat)
    (pc : Problem) (id : TensorArgumentId) (name_str : String) :
    (inputs.find id = none →
       Solution.get_input_checked pc inputs id name_str =
         .error (.missingArgument name_str)) ∧
    (∀ r, inputs.find id = some r → r.descriptor = none →
       pc.findTensorDescriptor id = none →
       Solution.get_input_checked pc inputs id name_str =
         .error (.missingArgument name_str)) ∧
    (∀ r d, inputs.find id = some r → r.descriptor = none →
       pc.findTensorDescriptor id = some d →
       Solution.get_input_checked pc inputs id name_str =
         .ok ⟨some d, r.buffer⟩) ∧
    (∀ descriptor, inputs.find id = none →
       Solution.buffer_getter inputs id descriptor =
         .error (.fusedMissingArgument id.code)) ∧
    (∀ evs n, Solution.Run ext sol handle inputs workspace workspace_size =
        (evs, .error (.missingArgument n)) → countInvoke evs = 0) ∧
    (∀ evs n, Solution.Run ext sol handle inputs workspace workspace_size =
        (evs, .error (.fusedMissingArgument n)) → countInvoke evs = 0) := by
  refine ⟨?_, ?_, ?_, ?_, ?_, ?_⟩
  · intro hnone
    unfold Solution.get_input_checked
    rw [hnone]
  · intro r hfind hdesc hprob
    unfold Solution.get_input_checked Problem.GetTensorDescriptorChecked
    rw [hfind, hprob]
    simp [hdesc]
  · intro r d hfind hdesc hprob
    unfold Solution.get_input_checked Problem.GetTensorDescriptorChecked
    rw [hfind, hprob]
    simp [hdesc]
  · intro descriptor hnone
    unfold Solution.buffer_getter
    rw [hnone]
  · intro evs n h
    unfold Solution.Run at h
    split at h
    · simp_all
    · split at h
      · split at h
        · rename_i x1 p1 hq1 x2 cd1 hq2
          have h2 : (Solution.RunImplConv ext sol handle inputs workspace
              workspace_size cd1 p1).2 = .error (.missingArgument n) := by
            rw [h]
          have h1 := runImplConv_missing_trace _ _ _ _ _ _ _ _ _ h2
          have hevs : evs = [] := by rw [h] at h1; exact h1
          simp [hevs, countInvoke]
        · simp_all
        · simp_all
      · rename_i x1 fp1 hq1
        have h2 : (Solution.RunImplFused ext sol handle inputs fp1).2 =
            .error (.missingArgument n) := by rw [h]
        have hcl := runImplFused_error_classes _ _ _ _ _ _ h2
        rcases hcl with ⟨m, h1⟩ | h1 <;> simp_all
  · intro evs n h
    unfold Solution.Run at h
    split at h
    · simp_all
    · split at h
      · split at h
        · rename_i x1 p1 hq1 x2 cd1 hq2
          have h2 : (Solution.RunImplConv ext sol handle inputs workspace
              workspace_size cd1 p1).2 = .error (.fusedMissingArgument n) := by
            rw [h]
          have hcl := runImplConv_error_classes _ _ _ _ _ _ _ _ _ h2
          rcases hcl with ⟨m, h1⟩ | h1 | ⟨m, h1⟩ | h1 <;> simp_all
        · simp_all
        · simp_all
      · rename_i x1 fp1 hq1
        have h2 : (Solution.RunImplFused ext sol handle inputs fp1).2 =
            .error (.fusedMissingArgument n) := by rw [h]
        have h1 := runImplFused_missing_trace _ _ _ _ _ _ h2
        have hevs : evs = [] := by rw [h] at h1; exact h1
        simp [hevs, countInvoke]

/-- C7 witness: with the Y argument absent from the caller inputs, input
resolution fails with the exact MissingArgument error. -/
theorem run_missing_argument_witness :
    Solution.get_input_checked probSample inputsNoY .convolutionY
      "miopenTensorConvolutionY" =
      .error (.missingArgument "miopenTensorConvolutionY") :=
  (run_missing_argument extSample solSample handleEmpty inputsNoY 0 0
     probSample .convolutionY "miopenTensorConvolutionY").1 rfl

/-- C8: Backward shape check — after resolution (and any transpose), a
backward-direction run whose output channel count (y length 1) differs
from the weight output-channel count (w length 0) fails with InvalidShape
with an empty trace (before any invocation or cache interaction); and every
InvalidShape failure arises exactly from that backward-direction mismatch
(for the other directions the check never fires). -/
theorem run_backward_shape_check (ext : Externals) (sol : Solution)
    (handle : Handle) (inputs : InputMap) (workspace workspace_size : Nat)
    (pc : Problem) (cd : ConvolutionDescriptor) (p_ : Problem)
    (x w y : RunInput)
    (hitem : sol.problem.item = .single pc)
    (hop : pc.operator_descriptor = .conv cd)
    (hws : ¬ workspace_size < sol.workspace_required)
    (hres : Solution.resolveConvInputs pc cd inputs = .ok (p_, x, w, y)) :
    (p_.GetDirection = .backward ∧
        y.derefDesc.lengths.getD 1 0 ≠ w.derefDesc.lengths.getD 0 0 →
       Solution.Run ext sol handle inputs workspace workspace_size =
         ([], .error .invalidShape)) ∧
    (∀ evs, Solution.Run ext sol handle inputs workspace workspace_size =
        (evs, .error .invalidShape) →
       (p_.GetDirection = .backward ∧
          y.derefDesc.lengths.getD 1 0 ≠ w.derefDesc.lengths.getD 0 0) ∧
         evs = []) := by
  have hred := run_reduces_conv ext sol handle inputs workspace workspace_size
    pc cd hitem hop hws
  have himpl : Solution.RunImplConv ext sol handle inputs workspace
      workspace_size cd pc = Solution.runResolvedConv ext sol handle workspace
      workspace_size p_ x w y := by
    unfold Solution.RunImplConv
    rw [hres]
  have hs := runResolvedConv_shape ext sol handle workspace workspace_size
    p_ x w y
  constructor
  · intro hc
    rw [hred, himpl]
    exact hs.1 hc
  · intro evs h
    rw [hred, himpl] at h
    exact hs.2 evs h

/-- C8 witness: a backward problem with 63 output channels against 64
weight output channels fails with InvalidShape and an empty trace. -/
theorem run_backward_shape_check_witness :
    Solution.Run extSample solSampleBwdBad handleEmpty inputsSample 0 0 =
      ([], .error .invalidShape) :=
  (run_backward_shape_check extSample solSampleBwdBad handleEmpty inputsSample
     0 0 probSampleBwdBad ⟨.convolution, ⟨false, false, false⟩⟩
     probSampleBwdBad ⟨some descSampleX, 10⟩ ⟨some descSampleW, 11⟩
     ⟨some descSampleYBad, 12⟩ rfl rfl (by decide) rfl).1 (by decide)

end MIOpen
